import Mathlib

/-! Shader model registry (`lib/DXIL/DxilShaderModel.cpp`).

A shallow embedding of the shader model table, the lookup `ShaderModel::Get`,
the profile-name parser `ShaderModel::GetByName`, the version derivations and
the kind / launch-type name mappers, followed by theorems about them.

Conventions of the embedding:

* `unsigned` values are natural numbers; the 32-bit wrap of a shift is written
  `% 2 ^ 32` where the source shifts.
* A function that can stop on a failed assertion (`DXASSERT`) or on a read of a
  character outside the string it was given returns `Option`; `none` is that
  failure, `some v` is a normal return of `v`.
* The values that a function leaves in its out-parameters (`unsigned &`) are
  its result.
-/

namespace hlsl

/-! ## Data model -/

/-- Modelled from the spec: the enumeration `DXIL::ShaderKind` (alias
`ShaderModel::Kind`) is declared in a header outside the source slice. The
constructors are listed in ordinal order; the order is the one fixed by
`ShaderModelKindNames`, by the `static_assert` of `GetKindName`
(`Invalid` is ordinal 16) and by the keys of `hashToIdxMap`. -/
inductive Kind where
  | Pixel
  | Vertex
  | Geometry
  | Hull
  | Domain
  | Compute
  | Library
  | RayGeneration
  | Intersection
  | AnyHit
  | ClosestHit
  | Miss
  | Callable
  | Mesh
  | Amplification
  | Node
  | Invalid
  deriving DecidableEq, Repr

/-- The cast `static_cast<unsigned>(kind)`: the ordinal of a kind. -/
def Kind.toUnsigned : Kind → Nat
  | .Pixel => 0
  | .Vertex => 1
  | .Geometry => 2
  | .Hull => 3
  | .Domain => 4
  | .Compute => 5
  | .Library => 6
  | .RayGeneration => 7
  | .Intersection => 8
  | .AnyHit => 9
  | .ClosestHit => 10
  | .Miss => 11
  | .Callable => 12
  | .Mesh => 13
  | .Amplification => 14
  | .Node => 15
  | .Invalid => 16

/-- All seventeen kinds, in ordinal order. -/
def Kind.all : List Kind :=
  [.Pixel, .Vertex, .Geometry, .Hull, .Domain, .Compute, .Library,
   .RayGeneration, .Intersection, .AnyHit, .ClosestHit, .Miss, .Callable,
   .Mesh, .Amplification, .Node, .Invalid]

/-- The constant `UINT_MAX` of `<limits.h>` for a 32-bit `unsigned`. -/
def UINT_MAX : Nat := 4294967295

/-- Modelled from the spec: `ShaderModel::kOfflineMinor`, the reserved minor of
the offline library profile, is declared in the header; its value `0xF` is the
one packed into the key `394767` of `lib_6_x` in `hashToIdxMap`. -/
def kOfflineMinor : Nat := 0xF

/-- Modelled from the spec: `ShaderModel::kNumShaderModels`, the length of
`ms_ShaderModels`, is declared in the header; the initialiser of the table has
92 rows, the last one being the invalid record that `GetInvalid` addresses. -/
def kNumShaderModels : Nat := 92

/-- The fields of `class ShaderModel` that the constructor initialises. -/
structure ShaderModel where
  m_Kind : Kind
  m_Major : Nat
  m_Minor : Nat
  m_pszName : String
  m_NumInputRegs : Nat
  m_NumOutputRegs : Nat
  m_bTypedUavs : Bool
  m_NumUAVRegs : Nat
  deriving DecidableEq, Repr

/-- The constructor `ShaderModel::ShaderModel`: nine arguments, eight fields;
`bUAVs` is accepted and stored nowhere. -/
def SM (Kind : Kind) (Major Minor : Nat) (pszName : String)
    (NumInputRegs NumOutputRegs : Nat) (bUAVs bTypedUavs : Bool)
    (NumUAVRegs : Nat) : ShaderModel :=
  let _ := bUAVs
  { m_Kind := Kind, m_Major := Major, m_Minor := Minor, m_pszName := pszName,
    m_NumInputRegs := NumInputRegs, m_NumOutputRegs := NumOutputRegs,
    m_bTypedUavs := bTypedUavs, m_NumUAVRegs := NumUAVRegs }

/-- The comparison `ShaderModel::operator==`: every field is compared, the name
by content (`strcmp(...) == 0`). -/
def ShaderModel.opEq (self other : ShaderModel) : Bool :=
  decide (self.m_Kind = other.m_Kind) && decide (self.m_Major = other.m_Major) &&
  decide (self.m_Minor = other.m_Minor) &&
  decide (self.m_pszName = other.m_pszName) &&
  decide (self.m_NumInputRegs = other.m_NumInputRegs) &&
  decide (self.m_NumOutputRegs = other.m_NumOutputRegs) &&
  decide (self.m_bTypedUavs = other.m_bTypedUavs) &&
  decide (self.m_NumUAVRegs = other.m_NumUAVRegs)

/-! ## The table -/

/-- The table `ShaderModel::ms_ShaderModels`, row for row. -/
def ms_ShaderModels : List ShaderModel := [
  SM .Pixel 4 0 "ps_4_0" 32 8 false false 0,
  SM .Pixel 4 1 "ps_4_1" 32 8 false false 0,
  SM .Pixel 5 0 "ps_5_0" 32 8 true true 64,
  SM .Pixel 5 1 "ps_5_1" 32 8 true true 64,
  SM .Pixel 6 0 "ps_6_0" 32 8 true true UINT_MAX,
  SM .Pixel 6 1 "ps_6_1" 32 8 true true UINT_MAX,
  SM .Pixel 6 2 "ps_6_2" 32 8 true true UINT_MAX,
  SM .Pixel 6 3 "ps_6_3" 32 8 true true UINT_MAX,
  SM .Pixel 6 4 "ps_6_4" 32 8 true true UINT_MAX,
  SM .Pixel 6 5 "ps_6_5" 32 8 true true UINT_MAX,
  SM .Pixel 6 6 "ps_6_6" 32 8 true true UINT_MAX,
  SM .Pixel 6 7 "ps_6_7" 32 8 true true UINT_MAX,
  SM .Pixel 6 8 "ps_6_8" 32 8 true true UINT_MAX,
  SM .Vertex 4 0 "vs_4_0" 16 16 false false 0,
  SM .Vertex 4 1 "vs_4_1" 32 32 false false 0,
  SM .Vertex 5 0 "vs_5_0" 32 32 true true 64,
  SM .Vertex 5 1 "vs_5_1" 32 32 true true 64,
  SM .Vertex 6 0 "vs_6_0" 32 32 true true UINT_MAX,
  SM .Vertex 6 1 "vs_6_1" 32 32 true true UINT_MAX,
  SM .Vertex 6 2 "vs_6_2" 32 32 true true UINT_MAX,
  SM .Vertex 6 3 "vs_6_3" 32 32 true true UINT_MAX,
  SM .Vertex 6 4 "vs_6_4" 32 32 true true UINT_MAX,
  SM .Vertex 6 5 "vs_6_5" 32 32 true true UINT_MAX,
  SM .Vertex 6 6 "vs_6_6" 32 32 true true UINT_MAX,
  SM .Vertex 6 7 "vs_6_7" 32 32 true true UINT_MAX,
  SM .Vertex 6 8 "vs_6_8" 32 32 true true UINT_MAX,
  SM .Geometry 4 0 "gs_4_0" 16 32 false false 0,
  SM .Geometry 4 1 "gs_4_1" 32 32 false false 0,
  SM .Geometry 5 0 "gs_5_0" 32 32 true true 64,
  SM .Geometry 5 1 "gs_5_1" 32 32 true true 64,
  SM .Geometry 6 0 "gs_6_0" 32 32 true true UINT_MAX,
  SM .Geometry 6 1 "gs_6_1" 32 32 true true UINT_MAX,
  SM .Geometry 6 2 "gs_6_2" 32 32 true true UINT_MAX,
  SM .Geometry 6 3 "gs_6_3" 32 32 true true UINT_MAX,
  SM .Geometry 6 4 "gs_6_4" 32 32 true true UINT_MAX,
  SM .Geometry 6 5 "gs_6_5" 32 32 true true UINT_MAX,
  SM .Geometry 6 6 "gs_6_6" 32 32 true true UINT_MAX,
  SM .Geometry 6 7 "gs_6_7" 32 32 true true UINT_MAX,
  SM .Geometry 6 8 "gs_6_8" 32 32 true true UINT_MAX,
  SM .Hull 5 0 "hs_5_0" 32 32 true true 64,
  SM .Hull 5 1 "hs_5_1" 32 32 true true 64,
  SM .Hull 6 0 "hs_6_0" 32 32 true true UINT_MAX,
  SM .Hull 6 1 "hs_6_1" 32 32 true true UINT_MAX,
  SM .Hull 6 2 "hs_6_2" 32 32 true true UINT_MAX,
  SM .Hull 6 3 "hs_6_3" 32 32 true true UINT_MAX,
  SM .Hull 6 4 "hs_6_4" 32 32 true true UINT_MAX,
  SM .Hull 6 5 "hs_6_5" 32 32 true true UINT_MAX,
  SM .Hull 6 6 "hs_6_6" 32 32 true true UINT_MAX,
  SM .Hull 6 7 "hs_6_7" 32 32 true true UINT_MAX,
  SM .Hull 6 8 "hs_6_8" 32 32 true true UINT_MAX,
  SM .Domain 5 0 "ds_5_0" 32 32 true true 64,
  SM .Domain 5 1 "ds_5_1" 32 32 true true 64,
  SM .Domain 6 0 "ds_6_0" 32 32 true true UINT_MAX,
  SM .Domain 6 1 "ds_6_1" 32 32 true true UINT_MAX,
  SM .Domain 6 2 "ds_6_2" 32 32 true true UINT_MAX,
  SM .Domain 6 3 "ds_6_3" 32 32 true true UINT_MAX,
  SM .Domain 6 4 "ds_6_4" 32 32 true true UINT_MAX,
  SM .Domain 6 5 "ds_6_5" 32 32 true true UINT_MAX,
  SM .Domain 6 6 "ds_6_6" 32 32 true true UINT_MAX,
  SM .Domain 6 7 "ds_6_7" 32 32 true true UINT_MAX,
  SM .Domain 6 8 "ds_6_8" 32 32 true true UINT_MAX,
  SM .Compute 4 0 "cs_4_0" 0 0 false false 0,
  SM .Compute 4 1 "cs_4_1" 0 0 false false 0,
  SM .Compute 5 0 "cs_5_0" 0 0 true true 64,
  SM .Compute 5 1 "cs_5_1" 0 0 true true 64,
  SM .Compute 6 0 "cs_6_0" 0 0 true true UINT_MAX,
  SM .Compute 6 1 "cs_6_1" 0 0 true true UINT_MAX,
  SM .Compute 6 2 "cs_6_2" 0 0 true true UINT_MAX,
  SM .Compute 6 3 "cs_6_3" 0 0 true true UINT_MAX,
  SM .Compute 6 4 "cs_6_4" 0 0 true true UINT_MAX,
  SM .Compute 6 5 "cs_6_5" 0 0 true true UINT_MAX,
  SM .Compute 6 6 "cs_6_6" 0 0 true true UINT_MAX,
  SM .Compute 6 7 "cs_6_7" 0 0 true true UINT_MAX,
  SM .Compute 6 8 "cs_6_8" 0 0 true true UINT_MAX,
  SM .Library 6 1 "lib_6_1" 32 32 true true UINT_MAX,
  SM .Library 6 2 "lib_6_2" 32 32 true true UINT_MAX,
  SM .Library 6 3 "lib_6_3" 32 32 true true UINT_MAX,
  SM .Library 6 4 "lib_6_4" 32 32 true true UINT_MAX,
  SM .Library 6 5 "lib_6_5" 32 32 true true UINT_MAX,
  SM .Library 6 6 "lib_6_6" 32 32 true true UINT_MAX,
  SM .Library 6 7 "lib_6_7" 32 32 true true UINT_MAX,
  SM .Library 6 8 "lib_6_8" 32 32 true true UINT_MAX,
  SM .Library 6 kOfflineMinor "lib_6_x" 32 32 true true UINT_MAX,
  SM .Mesh 6 5 "ms_6_5" 0 0 true true UINT_MAX,
  SM .Mesh 6 6 "ms_6_6" 0 0 true true UINT_MAX,
  SM .Mesh 6 7 "ms_6_7" 0 0 true true UINT_MAX,
  SM .Mesh 6 8 "ms_6_8" 0 0 true true UINT_MAX,
  SM .Amplification 6 5 "as_6_5" 0 0 true true UINT_MAX,
  SM .Amplification 6 6 "as_6_6" 0 0 true true UINT_MAX,
  SM .Amplification 6 7 "as_6_7" 0 0 true true UINT_MAX,
  SM .Amplification 6 8 "as_6_8" 0 0 true true UINT_MAX,
  SM .Invalid 0 0 "invalid" 0 0 false false 0]

/-- The accessor `ShaderModel::GetInvalid`: the address of
`ms_ShaderModels[kNumShaderModels - 1]`. -/
def GetInvalid : ShaderModel :=
  ms_ShaderModels.getD (kNumShaderModels - 1) (SM .Invalid 0 0 "invalid" 0 0 false false 0)

/-- The rows of the table before the final invalid record. -/
def realShaderModels : List ShaderModel :=
  ms_ShaderModels.take (kNumShaderModels - 1)

/-! ## Lookup -/

/-- The static array `hashToIdxMap` of `ShaderModel::Get`, pair for pair. -/
def hashToIdxMap : List (Nat × Nat) := [
  (1024, 0), (1025, 1), (1280, 2), (1281, 3), (1536, 4), (1537, 5), (1538, 6),
  (1539, 7), (1540, 8), (1541, 9), (1542, 10), (1543, 11), (1544, 12),
  (66560, 13), (66561, 14), (66816, 15), (66817, 16), (67072, 17), (67073, 18),
  (67074, 19), (67075, 20), (67076, 21), (67077, 22), (67078, 23), (67079, 24),
  (67080, 25),
  (132096, 26), (132097, 27), (132352, 28), (132353, 29), (132608, 30),
  (132609, 31), (132610, 32), (132611, 33), (132612, 34), (132613, 35),
  (132614, 36), (132615, 37), (132616, 38),
  (197888, 39), (197889, 40), (198144, 41), (198145, 42), (198146, 43),
  (198147, 44), (198148, 45), (198149, 46), (198150, 47), (198151, 48),
  (198152, 49),
  (263424, 50), (263425, 51), (263680, 52), (263681, 53), (263682, 54),
  (263683, 55), (263684, 56), (263685, 57), (263686, 58), (263687, 59),
  (263688, 60),
  (328704, 61), (328705, 62), (328960, 63), (328961, 64), (329216, 65),
  (329217, 66), (329218, 67), (329219, 68), (329220, 69), (329221, 70),
  (329222, 71), (329223, 72), (329224, 73),
  (394753, 74), (394754, 75), (394755, 76), (394756, 77), (394757, 78),
  (394758, 79), (394759, 80), (394760, 81), (394767, 82),
  (853509, 83), (853510, 84), (853511, 85), (853512, 86),
  (919045, 87), (919046, 88), (919047, 89), (919048, 90)]

/-- The value `hash` of `ShaderModel::Get`:
`(unsigned)Kind << 16 | Major << 8 | Minor` on 32-bit `unsigned` operands. The
arguments are reduced to 32 bits, each shift wraps at `2 ^ 32`, and the three
parts are combined with bitwise or. -/
def Get_hash (Kind : Kind) (Major Minor : Nat) : Nat :=
  ((Kind.toUnsigned <<< 16) % 2 ^ 32) ||| (((Major % 2 ^ 32) <<< 8) % 2 ^ 32)
    ||| (Minor % 2 ^ 32)

/-- The lambda `pred` of `ShaderModel::Get`: `elem.first < val`. -/
def Get_pred (elem : Nat × Nat) (val : Nat) : Bool :=
  decide (elem.1 < val)

/-- The loop of `std::lower_bound` over `arr`, on the half-open range that
starts at index `first` and has `count` elements: halve `count`, look at the
middle element, keep the right part when `pred` holds there and the left part
otherwise. The first argument bounds the number of iterations. -/
def lower_bound_loop (arr : List (Nat × Nat)) (val : Nat) :
    Nat → Nat → Nat → Nat
  | 0, first, _ => first
  | fuel + 1, first, count =>
    if 0 < count then
      let step := count / 2
      let it := first + step
      if Get_pred (arr.getD it (0, 0)) val then
        lower_bound_loop arr val fuel (it + 1) (count - (step + 1))
      else
        lower_bound_loop arr val fuel first step
    else first

/-- The call `std::lower_bound(std::begin(arr), std::end(arr), val, pred)`,
as an index into `arr` (the length of `arr` stands for `std::end`). Every
iteration of the loop makes `count` smaller, so `arr.length` iterations are
enough. -/
def lower_bound (arr : List (Nat × Nat)) (val : Nat) : Nat :=
  lower_bound_loop arr val arr.length 0 arr.length

/-- The lookup `ShaderModel::Get`. -/
def Get (Kind : Kind) (Major Minor : Nat) : ShaderModel :=
  let hash := Get_hash Kind Major Minor
  let it := lower_bound hashToIdxMap hash
  if it = hashToIdxMap.length ∨ (hashToIdxMap.getD it (0, 0)).1 ≠ hash then
    GetInvalid
  else
    ms_ShaderModels.getD (hashToIdxMap.getD it (0, 0)).2 GetInvalid

/-! ## The profile-name parser -/

/-- Modelled from the spec: `llvm::StringRef::operator[]` is declared in a
header outside the source slice. A string of `size()` characters has the
indices `0 .. size() - 1`; the read `Name[Index]` yields the character there,
and a read at an index at or past `size()` is outside the string (`none`).
The characters of a Lean string stand for the bytes of the `StringRef`; every
character the parser accepts is ASCII, where the two coincide. -/
def StringRef_at (Name : String) (Index : Nat) : Option Char :=
  Name.data[Index]?

/-- The first `switch` of `GetByName`, on `Name[0]`: the kind that the leading
character selects; `none` is the `default` branch. -/
def GetByName_kind (c : Char) : Option Kind :=
  if c = 'p' then some .Pixel
  else if c = 'v' then some .Vertex
  else if c = 'g' then some .Geometry
  else if c = 'h' then some .Hull
  else if c = 'd' then some .Domain
  else if c = 'c' then some .Compute
  else if c = 'l' then some .Library
  else if c = 'm' then some .Mesh
  else if c = 'a' then some .Amplification
  else none

/-- The second `switch` of `GetByName`, on the major character; `none` is the
`default` branch. -/
def GetByName_major (c : Char) : Option Nat :=
  if c = '4' then some 4
  else if c = '5' then some 5
  else if c = '6' then some 6
  else none

/-- The third `switch` of `GetByName`, on the minor character; `none` stands
for every branch that returns `GetInvalid()`. -/
def GetByName_minor (kind : Kind) (Major : Nat) (c : Char) : Option Nat :=
  if c = '0' then some 0
  else if c = '1' then some 1
  else if c = '2' then (if Major = 6 then some 2 else none)
  else if c = '3' then (if Major = 6 then some 3 else none)
  else if c = '4' then (if Major = 6 then some 4 else none)
  else if c = '5' then (if Major = 6 then some 5 else none)
  else if c = '6' then (if Major = 6 then some 6 else none)
  else if c = '7' then (if Major = 6 then some 7 else none)
  else if c = '8' then (if Major = 6 then some 8 else none)
  else if c = 'x' then
    (if kind = .Library ∧ Major = 6 then some kOfflineMinor else none)
  else none

/-- The part of `GetByName` after the prefix check, with `Idx` at the major
character: `switch (Name[Idx++])`, `if (Name[Idx++] != '_')`,
`switch (Name[Idx++])`, the check `Name.size() > Idx`, and the call of `Get`.
The outer `none` is a read outside the string. -/
def GetByName_version (Name : String) (kind : Kind) (Idx : Nat) :
    Option ShaderModel :=
  match StringRef_at Name Idx with
  | none => none
  | some cMajor =>
    match GetByName_major cMajor with
    | none => some GetInvalid
    | some Major =>
      match StringRef_at Name (Idx + 1) with
      | none => none
      | some cSep =>
        if cSep ≠ '_' then some GetInvalid
        else
          match StringRef_at Name (Idx + 2) with
          | none => none
          | some cMinor =>
            match GetByName_minor kind Major cMinor with
            | none => some GetInvalid
            | some Minor =>
              if Name.length > Idx + 3 then some GetInvalid
              else some (Get kind Major Minor)

/-- The check `Name[i] != c` of `GetByName`, for the characters of a prefix in
the order the short-circuit `||` reads them, starting at index `i`:
`some true` when all of them match, `some false` at the first one that
differs (the later ones are then not read), `none` when a read is outside the
string. -/
def GetByName_expect (Name : String) : Nat → List Char → Option Bool
  | _, [] => some true
  | i, c :: cs =>
    match StringRef_at Name i with
    | none => none
    | some d => if d ≠ c then some false else GetByName_expect Name (i + 1) cs

/-- The parser `ShaderModel::GetByName`. The result `none` means that the
function read `Name[i]` at an index `i` with `Name.size() <= i`. -/
def GetByName (Name : String) : Option ShaderModel :=
  if Name.length = 0 then some GetInvalid
  else
    match StringRef_at Name 0 with
    | none => none
    | some c0 =>
      match GetByName_kind c0 with
      | none => some GetInvalid
      | some kind =>
        if kind ≠ .Library then
          match GetByName_expect Name 1 ['s', '_'] with
          | none => none
          | some false => some GetInvalid
          | some true => GetByName_version Name kind 3
        else
          match GetByName_expect Name 1 ['i', 'b', '_'] with
          | none => none
          | some false => some GetInvalid
          | some true => GetByName_version Name kind 4

/-! ## Validity and derived versions -/

/-- Modelled from the spec: the macro `DXASSERT(exp, msg)` is defined in a
header outside the source slice; a violated assertion is fatal, not a
recoverable condition. `some ()` lets the function go on, `none` stops it. -/
def DXASSERT (exp : Bool) : Option Unit :=
  if exp then some () else none

/-- Modelled from the spec: the inline predicates `IsPS`, `IsVS`, `IsGS`,
`IsHS`, `IsDS`, `IsCS`, `IsLib`, `IsMS` and `IsAS` are declared in the header;
each tests the kind of the record against one stage. This is their
disjunction together with `m_Kind == Kind::Invalid`, the condition that
`IsValid` asserts. -/
def ShaderModel.IsValid_condition (self : ShaderModel) : Bool :=
  decide (self.m_Kind = .Pixel) || decide (self.m_Kind = .Vertex) ||
  decide (self.m_Kind = .Geometry) || decide (self.m_Kind = .Hull) ||
  decide (self.m_Kind = .Domain) || decide (self.m_Kind = .Compute) ||
  decide (self.m_Kind = .Library) || decide (self.m_Kind = .Mesh) ||
  decide (self.m_Kind = .Amplification) || decide (self.m_Kind = .Invalid)

/-- The predicate `ShaderModel::IsValid`. -/
def ShaderModel.IsValid (self : ShaderModel) : Option Bool :=
  (DXASSERT self.IsValid_condition).bind fun _ =>
    some (decide (self.m_Kind ≠ .Invalid))

/-- The two nested `switch` statements of `IsValidForDxil`, reached when
`IsValid()` is true. -/
def ShaderModel.IsValidForDxil_switch (self : ShaderModel) : Bool :=
  if self.m_Major = 6 then
    match self.m_Minor with
    | 0 | 1 | 2 | 3 | 4 | 5 | 6 | 7 | 8 => true
    | m => if m = kOfflineMinor then decide (self.m_Kind = .Library) else false
  else false

/-- The predicate `ShaderModel::IsValidForDxil`. -/
def ShaderModel.IsValidForDxil (self : ShaderModel) : Option Bool :=
  self.IsValid.bind fun valid =>
    if !valid then some false
    else some self.IsValidForDxil_switch

/-- Modelled from the spec: the macro `DXASSERT(exp, msg)` by build. The spec
makes a violated assertion fatal in debug builds; in a build with `NDEBUG` the
macro checks nothing and the function goes on. -/
def DXASSERT_build (NDEBUG : Bool) (exp : Bool) : Option Unit :=
  if NDEBUG then some () else DXASSERT exp

/-- The predicate `ShaderModel::IsValid` by build: the same body, with the
assertion as `DXASSERT_build`. -/
def ShaderModel.IsValid_build (NDEBUG : Bool) (self : ShaderModel) :
    Option Bool :=
  (DXASSERT_build NDEBUG self.IsValid_condition).bind fun _ =>
    some (decide (self.m_Kind ≠ .Invalid))

/-- The predicate `ShaderModel::IsValidForDxil` by build: the same body, over
`IsValid_build`. -/
def ShaderModel.IsValidForDxil_build (NDEBUG : Bool) (self : ShaderModel) :
    Option Bool :=
  (self.IsValid_build NDEBUG).bind fun valid =>
    if !valid then some false
    else some self.IsValidForDxil_switch

/-- The function `ShaderModel::GetDxilVersion`; the result is the pair of
values left in `DxilMajor` and `DxilMinor`. The `default` branch assigns
nothing to `DxilMinor` and asserts `0`. -/
def ShaderModel.GetDxilVersion (self : ShaderModel) : Option (Nat × Nat) :=
  self.IsValidForDxil.bind fun valid =>
    (DXASSERT valid).bind fun _ =>
      let DxilMajor := 1
      match self.m_Minor with
      | 0 => some (DxilMajor, 0)
      | 1 => some (DxilMajor, 1)
      | 2 => some (DxilMajor, 2)
      | 3 => some (DxilMajor, 3)
      | 4 => some (DxilMajor, 4)
      | 5 => some (DxilMajor, 5)
      | 6 => some (DxilMajor, 6)
      | 7 => some (DxilMajor, 7)
      | 8 => some (DxilMajor, 8)
      | m =>
        if m = kOfflineMinor then some (DxilMajor, 8)
        else (DXASSERT false).bind fun _ => none

/-- The function `ShaderModel::GetMinValidatorVersion`; the result is the pair
of values left in `ValMajor` and `ValMinor`. -/
def ShaderModel.GetMinValidatorVersion (self : ShaderModel) :
    Option (Nat × Nat) :=
  self.IsValidForDxil.bind fun valid =>
    (DXASSERT valid).bind fun _ =>
      let ValMajor := 1
      match self.m_Minor with
      | 0 => some (ValMajor, 0)
      | 1 => some (ValMajor, 1)
      | 2 => some (ValMajor, 2)
      | 3 => some (ValMajor, 3)
      | 4 => some (ValMajor, 4)
      | 5 => some (ValMajor, 5)
      | 6 => some (ValMajor, 6)
      | 7 => some (ValMajor, 7)
      | 8 => some (ValMajor, 8)
      | m =>
        if m = kOfflineMinor then some (0, 0)
        else (DXASSERT false).bind fun _ => none

/-- Modelled from the spec: `ShaderModel::IsSM66Plus` is declared in the
header; the spec gives its rule as
`(major > 6) || (major == 6 && minor >= 6)`. -/
def ShaderModel.IsSM66Plus (self : ShaderModel) : Bool :=
  decide (self.m_Major > 6) ||
    (decide (self.m_Major = 6) && decide (self.m_Minor ≥ 6))

/-- The predicate `ShaderModel::AllowDerivatives`. -/
def ShaderModel.AllowDerivatives (self : ShaderModel) (sk : Kind) : Bool :=
  match sk with
  | .Pixel | .Library | .Node => true
  | .Compute | .Amplification | .Mesh => self.IsSM66Plus
  | _ => false

/-! ## Kind names -/

/-- The mapping `ShaderModel::KindFromFullName`: the `StringSwitch` compares
the whole string with each literal in turn. -/
def KindFromFullName (Name : String) : Kind :=
  if Name = "pixel" then .Pixel
  else if Name = "vertex" then .Vertex
  else if Name = "geometry" then .Geometry
  else if Name = "hull" then .Hull
  else if Name = "domain" then .Domain
  else if Name = "compute" then .Compute
  else if Name = "raygeneration" then .RayGeneration
  else if Name = "intersection" then .Intersection
  else if Name = "anyhit" then .AnyHit
  else if Name = "closesthit" then .ClosestHit
  else if Name = "miss" then .Miss
  else if Name = "callable" then .Callable
  else if Name = "mesh" then .Mesh
  else if Name = "amplification" then .Amplification
  else if Name = "node" then .Node
  else .Invalid

/-- The mapping `ShaderModel::FullNameFromKind`; the empty `llvm::StringRef()`
is the empty string. The `default` branch is not reachable from a value of
the enumeration. -/
def FullNameFromKind (sk : Kind) : String :=
  match sk with
  | .Pixel => "pixel"
  | .Vertex => "vertex"
  | .Geometry => "geometry"
  | .Hull => "hull"
  | .Domain => "domain"
  | .Compute => "compute"
  | .Library | .Invalid => ""
  | .RayGeneration => "raygeneration"
  | .Intersection => "intersection"
  | .AnyHit => "anyhit"
  | .ClosestHit => "closesthit"
  | .Miss => "miss"
  | .Callable => "callable"
  | .Mesh => "mesh"
  | .Amplification => "amplification"
  | .Node => "node"

/-- The array `ShaderModelKindNames`. -/
def ShaderModelKindNames : List String :=
  ["ps", "vs", "gs", "hs", "ds", "cs", "lib", "raygeneration", "intersection",
   "anyhit", "closesthit", "miss", "callable", "ms", "as", "node", "invalid"]

/-- The accessor `ShaderModel::GetKindName(Kind)`:
`ShaderModelKindNames[static_cast<unsigned int>(kind)]`; `none` is an index
outside the array. -/
def GetKindName (kind : Kind) : Option String :=
  ShaderModelKindNames[kind.toUnsigned]?

/-! ## Node launch types -/

/-- Modelled from the spec: the enumeration `DXIL::NodeLaunchType` is declared
in a header outside the source slice; the spec lists its four values, and the
`static_assert` of `GetNodeLaunchTypeName` makes `Thread` the ordinal of the
last entry of `NodeLaunchTypeNames`. -/
inductive NodeLaunchType where
  | Invalid
  | Broadcasting
  | Coalescing
  | Thread
  deriving DecidableEq, Repr

/-- The cast `static_cast<unsigned int>(launchTy)`. -/
def NodeLaunchType.toUnsigned : NodeLaunchType → Nat
  | .Invalid => 0
  | .Broadcasting => 1
  | .Coalescing => 2
  | .Thread => 3

/-- The array `NodeLaunchTypeNames`. -/
def NodeLaunchTypeNames : List String :=
  ["invalid", "broadcasting", "coalescing", "thread"]

/-- The accessor `ShaderModel::GetNodeLaunchTypeName`; `none` is an index
outside the array. -/
def GetNodeLaunchTypeName (launchTy : NodeLaunchType) : Option String :=
  NodeLaunchTypeNames[launchTy.toUnsigned]?

/-- Modelled from the spec: `llvm::StringRef::lower` is defined outside the
source slice; the spec calls the matching of launch-type names
case-insensitive. The call `name.lower()` replaces each of the letters `A` to
`Z` by its lower-case letter and keeps every other character. -/
def StringRef_lower (name : String) : String :=
  String.mk (name.data.map Char.toLower)

/-- The mapping `ShaderModel::NodeLaunchTypeFromName`. -/
def NodeLaunchTypeFromName (name : String) : NodeLaunchType :=
  let lowered := StringRef_lower name
  if lowered = "broadcasting" then .Broadcasting
  else if lowered = "coalescing" then .Coalescing
  else if lowered = "thread" then .Thread
  else .Invalid

/-! ## The rows of the table as constructor calls -/

/-- The composite key of the spec for a record:
`kind * 2 ^ 16 + major * 2 ^ 8 + minor`, with the ordinal of the kind. -/
def ShaderModel.compositeKey (self : ShaderModel) : Nat :=
  self.m_Kind.toUnsigned * 2 ^ 16 + self.m_Major * 2 ^ 8 + self.m_Minor

/-- The strict lexicographic order on the triples
(ordinal of the kind, major, minor) of two records. -/
def ShaderModel.tripleLt (a b : ShaderModel) : Prop :=
  a.m_Kind.toUnsigned < b.m_Kind.toUnsigned ∨
  (a.m_Kind.toUnsigned = b.m_Kind.toUnsigned ∧
    (a.m_Major < b.m_Major ∨ (a.m_Major = b.m_Major ∧ a.m_Minor < b.m_Minor)))

instance ShaderModel.decidableTripleLt (a b : ShaderModel) :
    Decidable (a.tripleLt b) := by
  unfold ShaderModel.tripleLt
  exact inferInstance

/-- The fifteen literals of the `StringSwitch` of `KindFromFullName`, in the
order of its `Case` calls. -/
def KindFromFullName_literals : List String :=
  ["pixel", "vertex", "geometry", "hull", "domain", "compute", "raygeneration",
   "intersection", "anyhit", "closesthit", "miss", "callable", "mesh",
   "amplification", "node"]

/-- The packed key of a record: `Get_hash` of its kind, major and minor. -/
def ShaderModel.key (self : ShaderModel) : Nat :=
  Get_hash self.m_Kind self.m_Major self.m_Minor

/-- The leading character that the first `switch` of `GetByName` maps to a
kind (a blank for the kinds it never produces). -/
def kindChar : Kind → Char
  | .Pixel => 'p'
  | .Vertex => 'v'
  | .Geometry => 'g'
  | .Hull => 'h'
  | .Domain => 'd'
  | .Compute => 'c'
  | .Library => 'l'
  | .Mesh => 'm'
  | .Amplification => 'a'
  | _ => ' '

/-- The character that the second `switch` of `GetByName` maps to a major. -/
def majorChar : Nat → Char
  | 4 => '4'
  | 5 => '5'
  | 6 => '6'
  | _ => ' '

/-- The character that the third `switch` of `GetByName` maps to a minor. -/
def minorChar : Nat → Char
  | 0 => '0'
  | 1 => '1'
  | 2 => '2'
  | 3 => '3'
  | 4 => '4'
  | 5 => '5'
  | 6 => '6'
  | 7 => '7'
  | 8 => '8'
  | 15 => 'x'
  | _ => ' '

/-- The characters of the only string that `GetByName` decodes to `kind`,
`Major` and `Minor`: the prefix that the prefix check demands, then `_`, the
major character, `_` and the minor character. -/
def profileChars (kind : Kind) (Major Minor : Nat) : List Char :=
  (if kind = .Library then ['l', 'i', 'b'] else [kindChar kind, 's']) ++
    ['_', majorChar Major, '_', minorChar Minor]

end hlsl

namespace hlsl

/-! ## The search and the lookup -/

/-- Enough iterations: with at least `count` iterations allowed the loop of
`std::lower_bound` gives the result it gives with exactly `count`, so the
bound in `lower_bound` never cuts the search short. -/
theorem lower_bound_loop_fuel (arr : List (Nat × Nat)) (val : Nat) :
    ∀ (count fuel first : Nat), count ≤ fuel →
      lower_bound_loop arr val fuel first count =
        lower_bound_loop arr val count first count := by
  intro count
  induction count using Nat.strong_induction_on with
  | _ count ih =>
    intro fuel first hle
    cases count with
    | zero =>
      cases fuel with
      | zero => rfl
      | succ f => simp [lower_bound_loop]
    | succ c =>
      cases fuel with
      | zero => omega
      | succ f =>
        simp only [lower_bound_loop, Nat.zero_lt_succ, if_true]
        have h1 : (c + 1) / 2 ≤ c := by omega
        have h2 : c + 1 - ((c + 1) / 2 + 1) ≤ c := by omega
        split
        · rw [ih _ (by omega) f _ (by omega), ih _ (by omega) c _ h2]
        · rw [ih _ (by omega) f _ (by omega), ih _ (by omega) c _ h1]

/-- The loop of `std::lower_bound` stays inside its range. -/
theorem lower_bound_loop_le (arr : List (Nat × Nat)) (val : Nat) :
    ∀ (fuel first count : Nat),
      lower_bound_loop arr val fuel first count ≤ first + count := by
  intro fuel
  induction fuel with
  | zero => intro first count; simp [lower_bound_loop]
  | succ f ih =>
    intro first count
    simp only [lower_bound_loop]
    split
    · split
      · have := ih (first + count / 2 + 1) (count - (count / 2 + 1))
        omega
      · have := ih first (count / 2)
        omega
    · omega

/-- The iterator that `std::lower_bound` returns is at most `std::end`. -/
theorem lower_bound_le (arr : List (Nat × Nat)) (val : Nat) :
    lower_bound arr val ≤ arr.length := by
  have := lower_bound_loop_le arr val arr.length 0 arr.length
  simpa [lower_bound] using this

set_option maxRecDepth 100000 in
/-- Every pair of `hashToIdxMap` points at a row before the invalid one, and
the key of the pair is the packed key of that row. -/
theorem hashToIdxMap_rows :
    ∀ i < hashToIdxMap.length,
      ms_ShaderModels.getD (hashToIdxMap.getD i (0, 0)).2 GetInvalid ∈
        realShaderModels ∧
      (ms_ShaderModels.getD (hashToIdxMap.getD i (0, 0)).2 GetInvalid).key =
        (hashToIdxMap.getD i (0, 0)).1 := by
  decide

/-- What `Get` returns for any arguments: the invalid record, or a row of the
table whose packed key is the packed key of the arguments. -/
theorem Get_invalid_or_key (k : Kind) (M m : Nat) :
    Get k M m = GetInvalid ∨
      (Get k M m ∈ realShaderModels ∧ (Get k M m).key = Get_hash k M m) := by
  unfold Get
  simp only
  split
  · exact Or.inl rfl
  · rename_i hc
    right
    have hle := lower_bound_le hashToIdxMap (Get_hash k M m)
    have hlt : lower_bound hashToIdxMap (Get_hash k M m) < hashToIdxMap.length := by
      rcases Nat.lt_or_ge (lower_bound hashToIdxMap (Get_hash k M m))
        hashToIdxMap.length with h | h
      · exact h
      · exact absurd (Or.inl (Nat.le_antisymm hle h)) hc
    have hrow := hashToIdxMap_rows _ hlt
    refine ⟨hrow.1, ?_⟩
    rw [hrow.2]
    by_contra hne
    exact hc (Or.inr hne)

/-! ## The parser -/

/-- The first `switch` of `GetByName` read backwards. -/
theorem GetByName_kind_some (c : Char) (k : Kind)
    (h : GetByName_kind c = some k) :
    k ∈ [Kind.Pixel, .Vertex, .Geometry, .Hull, .Domain, .Compute, .Library,
        .Mesh, .Amplification] ∧ c = kindChar k := by
  unfold GetByName_kind at h
  split_ifs at h <;> cases h <;> simp_all [kindChar]

/-- The second `switch` of `GetByName` read backwards. -/
theorem GetByName_major_some (c : Char) (M : Nat)
    (h : GetByName_major c = some M) :
    M ∈ [4, 5, 6] ∧ c = majorChar M := by
  unfold GetByName_major at h
  split_ifs at h <;> cases h <;> simp_all [majorChar]

/-- The third `switch` of `GetByName` read backwards. -/
theorem GetByName_minor_some (k : Kind) (M : Nat) (c : Char) (m : Nat)
    (h : GetByName_minor k M c = some m) :
    m ∈ [0, 1, 2, 3, 4, 5, 6, 7, 8, 15] ∧ c = minorChar m ∧
      (m = kOfflineMinor → k = .Library ∧ M = 6) := by
  unfold GetByName_minor at h
  by_cases h0 : c = '0'
  · rw [if_pos h0] at h; cases h; exact ⟨by decide, h0, fun hx => absurd hx (by decide)⟩
  rw [if_neg h0] at h
  by_cases h1 : c = '1'
  · rw [if_pos h1] at h; cases h; exact ⟨by decide, h1, fun hx => absurd hx (by decide)⟩
  rw [if_neg h1] at h
  by_cases h2 : c = '2'
  · rw [if_pos h2] at h
    by_cases hM : M = 6
    · rw [if_pos hM] at h; cases h; exact ⟨by decide, h2, fun hx => absurd hx (by decide)⟩
    · rw [if_neg hM] at h; cases h
  rw [if_neg h2] at h
  by_cases h3 : c = '3'
  · rw [if_pos h3] at h
    by_cases hM : M = 6
    · rw [if_pos hM] at h; cases h; exact ⟨by decide, h3, fun hx => absurd hx (by decide)⟩
    · rw [if_neg hM] at h; cases h
  rw [if_neg h3] at h
  by_cases h4 : c = '4'
  · rw [if_pos h4] at h
    by_cases hM : M = 6
    · rw [if_pos hM] at h; cases h; exact ⟨by decide, h4, fun hx => absurd hx (by decide)⟩
    · rw [if_neg hM] at h; cases h
  rw [if_neg h4] at h
  by_cases h5 : c = '5'
  · rw [if_pos h5] at h
    by_cases hM : M = 6
    · rw [if_pos hM] at h; cases h; exact ⟨by decide, h5, fun hx => absurd hx (by decide)⟩
    · rw [if_neg hM] at h; cases h
  rw [if_neg h5] at h
  by_cases h6 : c = '6'
  · rw [if_pos h6] at h
    by_cases hM : M = 6
    · rw [if_pos hM] at h; cases h; exact ⟨by decide, h6, fun hx => absurd hx (by decide)⟩
    · rw [if_neg hM] at h; cases h
  rw [if_neg h6] at h
  by_cases h7 : c = '7'
  · rw [if_pos h7] at h
    by_cases hM : M = 6
    · rw [if_pos hM] at h; cases h; exact ⟨by decide, h7, fun hx => absurd hx (by decide)⟩
    · rw [if_neg hM] at h; cases h
  rw [if_neg h7] at h
  by_cases h8 : c = '8'
  · rw [if_pos h8] at h
    by_cases hM : M = 6
    · rw [if_pos hM] at h; cases h; exact ⟨by decide, h8, fun hx => absurd hx (by decide)⟩
    · rw [if_neg hM] at h; cases h
  rw [if_neg h8] at h
  by_cases hx : c = 'x'
  · rw [if_pos hx] at h
    by_cases hM : k = .Library ∧ M = 6
    · rw [if_pos hM] at h; cases h; exact ⟨by decide, hx, fun _ => hM⟩
    · rw [if_neg hM] at h; cases h
  rw [if_neg hx] at h
  cases h

set_option maxRecDepth 100000 in
/-- For every triple that the three `switch` statements can produce, if `Get`
finds a record then the name of the record is spelled by `profileChars`. -/
theorem Get_name_of_decoded :
    ∀ k ∈ [Kind.Pixel, .Vertex, .Geometry, .Hull, .Domain, .Compute, .Library,
        .Mesh, .Amplification],
      ∀ M ∈ [4, 5, 6], ∀ m ∈ [0, 1, 2, 3, 4, 5, 6, 7, 8, 15],
        Get k M m ≠ GetInvalid →
          (Get k M m).m_pszName = String.mk (profileChars k M m) := by
  decide

/-- A prefix check that succeeds has read the expected characters. -/
theorem GetByName_expect_true (Name : String) :
    ∀ (cs : List Char) (i : Nat), GetByName_expect Name i cs = some true →
      ∀ j, j < cs.length → Name.data[i + j]? = cs[j]? := by
  intro cs
  induction cs with
  | nil => intro i _ j hj; simp at hj
  | cons c cs ih =>
    intro i h j hj
    unfold GetByName_expect at h
    cases hA : StringRef_at Name i with
    | none => simp [hA] at h
    | some d =>
      simp only [hA] at h
      by_cases hd : d = c
      · simp only [hd, ne_eq, not_true_eq_false, if_false] at h
        cases j with
        | zero => simpa [StringRef_at, hd] using hA
        | succ j =>
          have := ih (i + 1) h j (by simpa using hj)
          simpa [Nat.add_assoc, Nat.add_comm 1 j] using this
      · simp [hd] at h

/-- When the part of `GetByName` after the prefix returns a record other than
the invalid one, the three characters it read are a major character, `_` and
a minor character, nothing follows them, and the record is what `Get` returns
for the decoded triple. -/
theorem GetByName_version_some (Name : String) (k : Kind) (Idx : Nat)
    (r : ShaderModel) (h : GetByName_version Name k Idx = some r)
    (hr : r ≠ GetInvalid) :
    ∃ M m, M ∈ [4, 5, 6] ∧ m ∈ [0, 1, 2, 3, 4, 5, 6, 7, 8, 15] ∧
      (m = kOfflineMinor → k = .Library ∧ M = 6) ∧
      Name.data[Idx]? = some (majorChar M) ∧
      Name.data[Idx + 1]? = some '_' ∧
      Name.data[Idx + 2]? = some (minorChar m) ∧
      Name.length ≤ Idx + 3 ∧ r = Get k M m := by
  unfold GetByName_version at h
  cases hA : StringRef_at Name Idx with
  | none => simp [hA] at h
  | some cM =>
    simp only [hA] at h
    cases hB : GetByName_major cM with
    | none => simp only [hB] at h; cases h; exact absurd rfl hr
    | some M =>
      simp only [hB] at h
      cases hC : StringRef_at Name (Idx + 1) with
      | none => simp [hC] at h
      | some cS =>
        simp only [hC] at h
        by_cases hS : cS = '_'
        · simp only [hS, ne_eq, not_true_eq_false, if_false] at h
          cases hD : StringRef_at Name (Idx + 2) with
          | none => simp [hD] at h
          | some cm =>
            simp only [hD] at h
            cases hE : GetByName_minor k M cm with
            | none => simp only [hE] at h; cases h; exact absurd rfl hr
            | some m =>
              simp only [hE] at h
              by_cases hL : Name.length > Idx + 3
              · rw [if_pos hL] at h; cases h; exact absurd rfl hr
              · rw [if_neg hL] at h
                cases h
                have hM := GetByName_major_some cM M hB
                have hm := GetByName_minor_some k M cm m hE
                refine ⟨M, m, hM.1, hm.1, hm.2.2, ?_, ?_, ?_, by omega, rfl⟩
                · rw [← hM.2]; exact hA
                · rw [← hS]; exact hC
                · rw [← hm.2.1]; exact hD
        · simp only [ne_eq, hS, not_false_eq_true, if_true] at h
          cases h; exact absurd rfl hr

/-- When `GetByName` returns a record other than the invalid one, the string
is spelled by `profileChars` for a triple that the switches produce, the
record is what `Get` returns for that triple, and the string is the name of
the record. -/
theorem GetByName_some_name (s : String) (r : ShaderModel)
    (h : GetByName s = some r) (hr : r ≠ GetInvalid) :
    ∃ k M m, (m = kOfflineMinor → k = .Library ∧ M = 6) ∧ r = Get k M m ∧
      s.data = profileChars k M m ∧ s = r.m_pszName := by
  unfold GetByName at h
  by_cases h0 : s.length = 0
  · rw [if_pos h0] at h; cases h; exact absurd rfl hr
  rw [if_neg h0] at h
  cases hA : StringRef_at s 0 with
  | none => simp [hA] at h
  | some c0 =>
    simp only [hA] at h
    cases hK : GetByName_kind c0 with
    | none => simp only [hK] at h; cases h; exact absurd rfl hr
    | some k =>
      simp only [hK] at h
      have hk := GetByName_kind_some c0 k hK
      have hc0 : s.data[0]? = some (kindChar k) := by
        rw [← hk.2]; exact hA
      by_cases hLib : k = .Library
      · simp only [hLib, ne_eq, not_true_eq_false, if_false] at h
        cases hE : GetByName_expect s 1 ['i', 'b', '_'] with
        | none => simp [hE] at h
        | some b =>
          cases b with
          | false => simp only [hE] at h; cases h; exact absurd rfl hr
          | true =>
            simp only [hE] at h
            obtain ⟨M, m, hM, hm, hoff, g4, g5, g6, hlen, hr'⟩ :=
              GetByName_version_some s .Library 4 r h hr
            have e := GetByName_expect_true s _ 1 hE
            have g1 := e 0 (by decide)
            have g2 := e 1 (by decide)
            have g3 := e 2 (by decide)
            have hdata : s.data = profileChars k M m := by
              apply List.ext_getElem?
              intro n
              rcases n with _ | _ | _ | _ | _ | _ | _ | n
              · simpa [profileChars, hLib, kindChar] using hc0
              · simpa [profileChars, hLib] using g1
              · simpa [profileChars, hLib] using g2
              · simpa [profileChars, hLib] using g3
              · simpa [profileChars, hLib] using g4
              · simpa [profileChars, hLib] using g5
              · simpa [profileChars, hLib] using g6
              · have : s.data.length ≤ n + 7 := by
                  have := hlen; simp only [String.length] at this; omega
                rw [List.getElem?_eq_none this]
                simp [profileChars, hLib]
            refine ⟨k, M, m, fun hx => ⟨hLib, (hoff hx).2⟩,
              by rw [hLib]; exact hr', hdata, ?_⟩
            have hn := Get_name_of_decoded k hk.1 M hM m hm
              (by rw [hLib, ← hr']; exact hr)
            rw [hr', ← hLib, hn, ← hdata]
      · simp only [ne_eq, hLib, not_false_eq_true, if_true] at h
        cases hE : GetByName_expect s 1 ['s', '_'] with
        | none => simp [hE] at h
        | some b =>
          cases b with
          | false => simp only [hE] at h; cases h; exact absurd rfl hr
          | true =>
            simp only [hE] at h
            obtain ⟨M, m, hM, hm, hoff, g3, g4, g5, hlen, hr'⟩ :=
              GetByName_version_some s k 3 r h hr
            have e := GetByName_expect_true s _ 1 hE
            have g1 := e 0 (by decide)
            have g2 := e 1 (by decide)
            have hdata : s.data = profileChars k M m := by
              apply List.ext_getElem?
              intro n
              rcases n with _ | _ | _ | _ | _ | _ | n
              · simpa [profileChars, hLib] using hc0
              · simpa [profileChars, hLib] using g1
              · simpa [profileChars, hLib] using g2
              · simpa [profileChars, hLib] using g3
              · simpa [profileChars, hLib] using g4
              · simpa [profileChars, hLib] using g5
              · have : s.data.length ≤ n + 6 := by
                  have := hlen; simp only [String.length] at this; omega
                rw [List.getElem?_eq_none this]
                simp [profileChars, hLib]
            refine ⟨k, M, m, hoff, hr', hdata, ?_⟩
            have hn := Get_name_of_decoded k hk.1 M hM m hm
              (by rw [← hr']; exact hr)
            rw [hr', hn, ← hdata]

/-- A read inside a string finds the same character after characters are
appended to the string. -/
theorem StringRef_at_append (s t : String) (i : Nat) (c : Char)
    (h : StringRef_at s i = some c) : StringRef_at (s ++ t) i = some c := by
  unfold StringRef_at at h ⊢
  have hi : i < s.data.length := by
    rcases Nat.lt_or_ge i s.data.length with hlt | hge
    · exact hlt
    · rw [List.getElem?_eq_none hge] at h; cases h
  rw [String.data_append, List.getElem?_append_left hi]
  exact h

/-- A prefix check that stays inside the string gives the same answer after
characters are appended to the string. -/
theorem GetByName_expect_append (s t : String) :
    ∀ (cs : List Char) (i : Nat) (b : Bool),
      GetByName_expect s i cs = some b →
        GetByName_expect (s ++ t) i cs = some b := by
  intro cs
  induction cs with
  | nil => intro i b h; simpa [GetByName_expect] using h
  | cons c cs ih =>
    intro i b h
    unfold GetByName_expect at h ⊢
    cases hA : StringRef_at s i with
    | none => simp [hA] at h
    | some d =>
      simp only [hA] at h
      simp only [StringRef_at_append s t i d hA]
      by_cases hd : d = c
      · simp only [hd, ne_eq, not_true_eq_false, if_false] at h ⊢
        exact ih (i + 1) b h
      · simpa [hd] using h

/-- When the part of `GetByName` after the prefix stays inside the string,
it returns the invalid record once characters are appended to the string. -/
theorem GetByName_version_append (s t : String) (k : Kind) (Idx : Nat)
    (r : ShaderModel) (h : GetByName_version s k Idx = some r)
    (ht : 0 < t.length) :
    GetByName_version (s ++ t) k Idx = some GetInvalid := by
  unfold GetByName_version at h ⊢
  cases hA : StringRef_at s Idx with
  | none => simp [hA] at h
  | some cM =>
    simp only [hA] at h
    simp only [StringRef_at_append s t Idx cM hA]
    cases hB : GetByName_major cM with
    | none => rfl
    | some M =>
      simp only [hB] at h ⊢
      cases hC : StringRef_at s (Idx + 1) with
      | none => simp [hC] at h
      | some cS =>
        simp only [hC] at h
        simp only [StringRef_at_append s t (Idx + 1) cS hC]
        by_cases hS : cS = '_'
        · simp only [hS, ne_eq, not_true_eq_false, if_false] at h ⊢
          cases hD : StringRef_at s (Idx + 2) with
          | none => simp [hD] at h
          | some cm =>
            simp only [hD] at h
            simp only [StringRef_at_append s t (Idx + 2) cm hD]
            cases hE : GetByName_minor k M cm with
            | none => rfl
            | some m =>
              simp only [hE]
              have hlen : Idx + 2 < s.data.length := by
                rcases Nat.lt_or_ge (Idx + 2) s.data.length with hlt | hge
                · exact hlt
                · unfold StringRef_at at hD
                  rw [List.getElem?_eq_none hge] at hD; cases hD
              have : (s ++ t).length > Idx + 3 := by
                rw [String.length_append]
                simp only [String.length] at ht ⊢
                omega
              rw [if_pos this]
        · simp only [ne_eq, hS, not_false_eq_true, if_true]

/-- A name that `GetByName` accepts is rejected with the invalid record once
further characters follow it. -/
theorem GetByName_append (s t : String) (r : ShaderModel)
    (h : GetByName s = some r) (hr : r ≠ GetInvalid) (ht : 0 < t.length) :
    GetByName (s ++ t) = some GetInvalid := by
  unfold GetByName at h ⊢
  have hne : ¬ (s ++ t).length = 0 := by
    rw [String.length_append]; omega
  rw [if_neg hne]
  by_cases h0 : s.length = 0
  · rw [if_pos h0] at h; cases h; exact absurd rfl hr
  rw [if_neg h0] at h
  cases hA : StringRef_at s 0 with
  | none => simp [hA] at h
  | some c0 =>
    simp only [hA] at h
    simp only [StringRef_at_append s t 0 c0 hA]
    cases hK : GetByName_kind c0 with
    | none => rfl
    | some k =>
      simp only [hK] at h ⊢
      by_cases hLib : k = .Library
      · simp only [hLib, ne_eq, not_true_eq_false, if_false] at h ⊢
        cases hE : GetByName_expect s 1 ['i', 'b', '_'] with
        | none => simp [hE] at h
        | some b =>
          simp only [GetByName_expect_append s t _ 1 b hE]
          cases b with
          | false => rfl
          | true =>
            simp only [hE] at h
            exact GetByName_version_append s t _ 4 r h ht
      · simp only [ne_eq, hLib, not_false_eq_true, if_true] at h ⊢
        cases hE : GetByName_expect s 1 ['s', '_'] with
        | none => simp [hE] at h
        | some b =>
          simp only [GetByName_expect_append s t _ 1 b hE]
          cases b with
          | false => rfl
          | true =>
            simp only [hE] at h
            exact GetByName_version_append s t _ 3 r h ht

/-! ## Validity and derived versions -/

/-- The nested `switch` of `IsValidForDxil` as one condition. -/
theorem IsValidForDxil_switch_eq (r : ShaderModel) :
    r.IsValidForDxil_switch = decide (r.m_Major = 6 ∧
      (r.m_Minor ≤ 8 ∨ (r.m_Minor = kOfflineMinor ∧ r.m_Kind = .Library))) := by
  obtain ⟨k, M, m, n, i, o, t, u⟩ := r
  simp only [ShaderModel.IsValidForDxil_switch, kOfflineMinor]
  by_cases hM : M = 6
  · rcases m with _ | _ | _ | _ | _ | _ | _ | _ | _ | m <;> simp [hM]
  · simp [hM]

/-- When `IsValidForDxil` returns true: the assertion of `IsValid` held, the
kind is not `Invalid`, the major is 6 and the minor is one of the accepted
ones. -/
theorem IsValidForDxil_true_iff (r : ShaderModel) :
    r.IsValidForDxil = some true ↔
      (r.IsValid_condition = true ∧ r.m_Kind ≠ .Invalid ∧ r.m_Major = 6 ∧
        (r.m_Minor ≤ 8 ∨ (r.m_Minor = kOfflineMinor ∧ r.m_Kind = .Library))) := by
  cases hc : r.IsValid_condition
  · simp [ShaderModel.IsValidForDxil, ShaderModel.IsValid, DXASSERT, hc]
  · simp only [ShaderModel.IsValidForDxil, ShaderModel.IsValid, DXASSERT, hc,
      IsValidForDxil_switch_eq]
    by_cases hk : r.m_Kind = .Invalid <;> simp [hk]

/-- The `switch` of `GetDxilVersion` on an accepted minor. -/
theorem GetDxilVersion_of_true (r : ShaderModel)
    (h : r.IsValidForDxil = some true) :
    r.GetDxilVersion =
      some (1, if r.m_Minor = kOfflineMinor then 8 else r.m_Minor) := by
  have hm := ((IsValidForDxil_true_iff r).mp h).2.2.2
  obtain ⟨k, M, m, n, i, o, t, u⟩ := r
  simp only [ShaderModel.GetDxilVersion, h, DXASSERT, kOfflineMinor] at hm ⊢
  rcases m with _ | _ | _ | _ | _ | _ | _ | _ | _ | m <;> simp
  have hm6 : m = 6 := by omega
  subst hm6
  simp

/-- The `switch` of `GetMinValidatorVersion` on an accepted minor. -/
theorem GetMinValidatorVersion_of_true (r : ShaderModel)
    (h : r.IsValidForDxil = some true) :
    r.GetMinValidatorVersion =
      if r.m_Minor = kOfflineMinor then some (0, 0) else some (1, r.m_Minor) := by
  have hm := ((IsValidForDxil_true_iff r).mp h).2.2.2
  obtain ⟨k, M, m, n, i, o, t, u⟩ := r
  simp only [ShaderModel.GetMinValidatorVersion, h, DXASSERT, kOfflineMinor] at hm ⊢
  rcases m with _ | _ | _ | _ | _ | _ | _ | _ | _ | m <;> simp
  have hm6 : m = 6 := by omega
  subst hm6
  simp

/-! ## Properties of the specification -/

set_option maxRecDepth 100000 in
/-- C1: the table has 91 records before the invalid one, and for each of them
`Get` called with its kind, major and minor returns a record equal to it under
`operator==`. -/
theorem Get_table_roundtrip :
    realShaderModels.length = 91 ∧
    ∀ e ∈ realShaderModels,
      (Get e.m_Kind e.m_Major e.m_Minor).opEq e = true := by
  decide

set_option maxRecDepth 100000 in
/-- C2: no record of the table has kind `Pixel`, major 0 and minor 1024, yet
`Get(Pixel, 0, 1024)` is not the invalid record: the packed key is 1024, the
key of `ps_4_0`, and that record is returned. -/
theorem Get_key_collision :
    (∀ e ∈ realShaderModels,
      ¬ (e.m_Kind = .Pixel ∧ e.m_Major = 0 ∧ e.m_Minor = 1024)) ∧
    Get_hash .Pixel 0 1024 = 1024 ∧
    Get .Pixel 0 1024 = SM .Pixel 4 0 "ps_4_0" 32 8 false false 0 ∧
    Get .Pixel 0 1024 ≠ GetInvalid := by
  decide

set_option maxRecDepth 100000 in
/-- C3: for every record of the table before the invalid one, `GetByName` on
its name returns a record equal to it under `operator==`; the offline library
record `lib_6_x` is one of them. -/
theorem GetByName_table_roundtrip :
    (∀ e ∈ realShaderModels,
      ∃ r, GetByName e.m_pszName = some r ∧ r.opEq e = true) ∧
    SM .Library 6 kOfflineMinor "lib_6_x" 32 32 true true UINT_MAX ∈ realShaderModels ∧
    GetByName "lib_6_x" =
      some (SM .Library 6 kOfflineMinor "lib_6_x" 32 32 true true UINT_MAX) := by
  decide

/-- C4: on the malformed name `ps_4` the parser accepts `p`, `s`, `_` and `4`
and then reads `Name[4]` of a string of size 4: the call does not return the
invalid record, it reads outside the string. The other listed names are
rejected with the invalid record. -/
theorem GetByName_ps_4_reads_outside :
    StringRef_at "ps_4" 4 = none ∧
    GetByName "ps_4" = none ∧
    GetByName "vs_7_0" = some GetInvalid ∧
    GetByName "xx_6_0" = some GetInvalid ∧
    GetByName "ps_6_0_0" = some GetInvalid ∧
    GetByName "lib_6_2x" = some GetInvalid ∧
    GetByName "hs_4_0" = some GetInvalid ∧
    GetByName "lib_6_0" = some GetInvalid ∧
    GetByName "ms_6_4" = some GetInvalid := by
  decide

/-- C5: the empty string is answered with the invalid record, but on each of
the short names `p`, `ps`, `lib`, `ps_4` and `ps_6_` the parser reads a
character at an index that is not below the size of the string; on `p`, of
size 1, it is the read `Name[1]`. -/
theorem GetByName_short_reads_outside :
    GetByName "" = some GetInvalid ∧
    ("p".length = 1 ∧ StringRef_at "p" 1 = none) ∧
    GetByName "p" = none ∧
    GetByName "ps" = none ∧
    GetByName "lib" = none ∧
    GetByName "ps_4" = none ∧
    GetByName "ps_6_" = none := by
  decide

set_option maxRecDepth 100000 in
/-- C6: for every record, `IsValidForDxil` is true exactly when the kind is
not `Invalid`, the major is 6, and the minor is in 0..8 or is the offline
minor of a library record. With the assertions compiled out this holds of
every record. With the assertion of `IsValid` checked it holds of every
record whose kind is a profile kind or `Invalid`, which every row of the
table is, and any value the call returns is the one stated. Over the table
it is true for the major-6 rows, `lib_6_x` included, and false for the
major-4 and major-5 rows and the invalid record; it is false for the offline
minor with a kind other than `Library`. -/
theorem IsValidForDxil_characterised :
    (∀ r : ShaderModel,
      r.IsValidForDxil_build true = some (decide
        (r.m_Kind ≠ .Invalid ∧ r.m_Major = 6 ∧
          (r.m_Minor ≤ 8 ∨ (r.m_Minor = kOfflineMinor ∧ r.m_Kind = .Library))))) ∧
    (∀ r : ShaderModel, r.IsValidForDxil_build false = r.IsValidForDxil) ∧
    (∀ r : ShaderModel, r.IsValid_condition = true →
      r.IsValidForDxil = some (decide
        (r.m_Kind ≠ .Invalid ∧ r.m_Major = 6 ∧
          (r.m_Minor ≤ 8 ∨ (r.m_Minor = kOfflineMinor ∧ r.m_Kind = .Library))))) ∧
    (∀ (r : ShaderModel) (b : Bool), r.IsValidForDxil = some b →
      (b = true ↔
        (r.m_Kind ≠ .Invalid ∧ r.m_Major = 6 ∧
          (r.m_Minor ≤ 8 ∨ (r.m_Minor = kOfflineMinor ∧ r.m_Kind = .Library))))) ∧
    (∀ e ∈ ms_ShaderModels, e.IsValid_condition = true ∧
      (e.IsValidForDxil = some true ↔
        (e.m_Kind ≠ .Invalid ∧ e.m_Major = 6 ∧
          (e.m_Minor ≤ 8 ∨ (e.m_Minor = kOfflineMinor ∧ e.m_Kind = .Library)))) ∧
      (e.IsValidForDxil = some true ∨ e.IsValidForDxil = some false)) ∧
    (∀ e ∈ ms_ShaderModels, e.IsValidForDxil = some (decide (e.m_Major = 6))) ∧
    (Get .Library 6 kOfflineMinor).m_pszName = "lib_6_x" ∧
    (Get .Library 6 kOfflineMinor).IsValidForDxil = some true ∧
    GetInvalid.IsValidForDxil = some false ∧
    (∀ r : ShaderModel, r.m_Minor = kOfflineMinor → r.m_Kind ≠ .Library →
      r.IsValidForDxil_build true = some false ∧
      (r.IsValid_condition = true → r.IsValidForDxil = some false)) := by
  have unchecked : ∀ r : ShaderModel,
      r.IsValidForDxil_build true = some (decide
        (r.m_Kind ≠ .Invalid ∧ r.m_Major = 6 ∧
          (r.m_Minor ≤ 8 ∨ (r.m_Minor = kOfflineMinor ∧ r.m_Kind = .Library)))) := by
    intro r
    simp only [ShaderModel.IsValidForDxil_build, ShaderModel.IsValid_build,
      DXASSERT_build, IsValidForDxil_switch_eq]
    by_cases hk : r.m_Kind = .Invalid <;> simp [hk]
  have checked : ∀ r : ShaderModel, r.IsValid_condition = true →
      r.IsValidForDxil = some (decide
        (r.m_Kind ≠ .Invalid ∧ r.m_Major = 6 ∧
          (r.m_Minor ≤ 8 ∨ (r.m_Minor = kOfflineMinor ∧ r.m_Kind = .Library)))) := by
    intro r h
    simp only [ShaderModel.IsValidForDxil, ShaderModel.IsValid, DXASSERT, h,
      IsValidForDxil_switch_eq]
    by_cases hk : r.m_Kind = .Invalid <;> simp [hk]
  refine ⟨unchecked, ?_, checked, ?_, by decide, by decide, by decide, by decide,
    by decide, ?_⟩
  · intro r
    simp [ShaderModel.IsValidForDxil_build, ShaderModel.IsValid_build,
      DXASSERT_build, ShaderModel.IsValidForDxil, ShaderModel.IsValid]
  · intro r b hb
    cases hc : r.IsValid_condition with
    | false =>
      simp [ShaderModel.IsValidForDxil, ShaderModel.IsValid, DXASSERT, hc] at hb
    | true =>
      rw [checked r hc] at hb
      cases hb
      simp
  · intro r hm hk
    refine ⟨?_, ?_⟩
    · rw [unchecked r]
      simp [hm, hk, kOfflineMinor]
    · intro hc
      rw [checked r hc]
      simp [hm, hk, kOfflineMinor]

/-- A witness of C6: at `ps_6_5`, whose kind is a profile kind, the call
returns true. -/
theorem IsValidForDxil_characterised_witness :
    (SM .Pixel 6 5 "ps_6_5" 32 8 true true UINT_MAX).IsValid_condition = true ∧
    (SM .Pixel 6 5 "ps_6_5" 32 8 true true UINT_MAX).IsValidForDxil = some true :=
  ⟨by decide,
   (IsValidForDxil_characterised.2.2.1
      (SM .Pixel 6 5 "ps_6_5" 32 8 true true UINT_MAX) (by decide)).trans
     (by decide)⟩

set_option maxRecDepth 100000 in
/-- C7: for every record on which `IsValidForDxil` returns true, the minor is
in 0..8 or is the offline minor, and `GetDxilVersion` returns major 1 with the
record's minor for a minor in 0..8 and with 8 for the offline minor; 8 is the
largest minor other than the offline one that `IsValidForDxil` accepts. A
minor-8 record gives (1, 8) and `lib_6_x` gives (1, 8). -/
theorem GetDxilVersion_valid :
    (∀ r : ShaderModel, r.IsValidForDxil = some true →
      (r.m_Minor ≤ 8 ∨ r.m_Minor = kOfflineMinor) ∧
      (r.m_Minor ≤ 8 → r.GetDxilVersion = some (1, r.m_Minor)) ∧
      (r.m_Minor = kOfflineMinor → r.GetDxilVersion = some (1, 8))) ∧
    (∀ r : ShaderModel, r.IsValidForDxil = some true →
      r.m_Minor ≠ kOfflineMinor → r.m_Minor ≤ 8) ∧
    (∃ r : ShaderModel, r.IsValidForDxil = some true ∧ r.m_Minor = 8) ∧
    (∀ e ∈ ms_ShaderModels, e.m_Minor = 8 → e.GetDxilVersion = some (1, 8)) ∧
    (Get .Library 6 kOfflineMinor).m_pszName = "lib_6_x" ∧
    (Get .Library 6 kOfflineMinor).GetDxilVersion = some (1, 8) := by
  refine ⟨?_, ?_, ⟨Get .Pixel 6 8, by decide, by decide⟩, by decide, by decide,
    by decide⟩
  · intro r h
    have hm := ((IsValidForDxil_true_iff r).mp h).2.2.2
    have hv := GetDxilVersion_of_true r h
    refine ⟨?_, ?_, ?_⟩
    · rcases hm with hm | hm
      · exact Or.inl hm
      · exact Or.inr hm.1
    · intro h8
      have : r.m_Minor ≠ kOfflineMinor := by
        simp only [kOfflineMinor]; omega
      simpa [this] using hv
    · intro h15
      simpa [h15] using hv
  · intro r h hne
    rcases ((IsValidForDxil_true_iff r).mp h).2.2.2 with hm | hm
    · exact hm
    · exact absurd hm.1 hne

set_option maxRecDepth 100000 in
/-- A witness of C7: `ps_6_8` is valid for DXIL and gives (1, 8). -/
theorem GetDxilVersion_valid_witness :
    (Get .Pixel 6 8).IsValidForDxil = some true ∧
    (Get .Pixel 6 8).GetDxilVersion = some (1, (Get .Pixel 6 8).m_Minor) :=
  ⟨by decide,
   (GetDxilVersion_valid.1 (Get .Pixel 6 8) (by decide)).2.1 (by decide)⟩

set_option maxRecDepth 100000 in
/-- C8: for every record on which `IsValidForDxil` returns true,
`GetMinValidatorVersion` returns (1, minor) for a minor in 0..8 and (0, 0) for
the offline minor. A minor-3 record gives (1, 3); `lib_6_x` gives (0, 0),
which is not the (1, 8) of `GetDxilVersion`. -/
theorem GetMinValidatorVersion_valid :
    (∀ r : ShaderModel, r.IsValidForDxil = some true →
      (r.m_Minor ≤ 8 → r.GetMinValidatorVersion = some (1, r.m_Minor)) ∧
      (r.m_Minor = kOfflineMinor → r.GetMinValidatorVersion = some (0, 0))) ∧
    (∀ e ∈ ms_ShaderModels, e.m_Minor = 3 →
      e.GetMinValidatorVersion = some (1, 3)) ∧
    (Get .Library 6 kOfflineMinor).m_pszName = "lib_6_x" ∧
    (Get .Library 6 kOfflineMinor).GetMinValidatorVersion = some (0, 0) ∧
    (Get .Library 6 kOfflineMinor).GetDxilVersion = some (1, 8) ∧
    (Get .Library 6 kOfflineMinor).GetMinValidatorVersion ≠
      (Get .Library 6 kOfflineMinor).GetDxilVersion := by
  refine ⟨?_, by decide, by decide, by decide, by decide, by decide⟩
  intro r h
  have hv := GetMinValidatorVersion_of_true r h
  refine ⟨?_, ?_⟩
  · intro h8
    have : r.m_Minor ≠ kOfflineMinor := by
      simp only [kOfflineMinor]; omega
    simpa [this] using hv
  · intro h15
    simpa [h15] using hv

set_option maxRecDepth 100000 in
/-- A witness of C8: `lib_6_x` is valid for DXIL and gives (0, 0). -/
theorem GetMinValidatorVersion_valid_witness :
    (Get .Library 6 kOfflineMinor).IsValidForDxil = some true ∧
    (Get .Library 6 kOfflineMinor).m_Minor = kOfflineMinor ∧
    (Get .Library 6 kOfflineMinor).GetMinValidatorVersion = some (0, 0) :=
  ⟨by decide, by decide,
   (GetMinValidatorVersion_valid.1 (Get .Library 6 kOfflineMinor) (by decide)).2
     (by decide)⟩

set_option maxRecDepth 100000 in
/-- C9: for every record `r` and kind `k`, `r.AllowDerivatives(k)` is true for
`Pixel`, `Library` and `Node`; for `Compute`, `Amplification` and `Mesh` it is
`major > 6 || (major == 6 && minor >= 6)`; it is false for every other kind.
Two records with the same major and minor give the same answer, whatever their
kinds. It is true for `Pixel` on every pixel record, false for `Compute` on
`cs_6_5` and true for `Compute` on `cs_6_6`. -/
theorem AllowDerivatives_spec :
    (∀ (r : ShaderModel) (k : Kind),
      ((k = .Pixel ∨ k = .Library ∨ k = .Node) → r.AllowDerivatives k = true) ∧
      ((k = .Compute ∨ k = .Amplification ∨ k = .Mesh) →
        r.AllowDerivatives k =
          decide (r.m_Major > 6 ∨ (r.m_Major = 6 ∧ r.m_Minor ≥ 6))) ∧
      ((k = .Vertex ∨ k = .Geometry ∨ k = .Hull ∨ k = .Domain ∨
          k = .RayGeneration ∨ k = .Intersection ∨ k = .AnyHit ∨
          k = .ClosestHit ∨ k = .Miss ∨ k = .Callable ∨ k = .Invalid) →
        r.AllowDerivatives k = false)) ∧
    (∀ (r r' : ShaderModel) (k : Kind),
      r.m_Major = r'.m_Major → r.m_Minor = r'.m_Minor →
      r.AllowDerivatives k = r'.AllowDerivatives k) ∧
    (∀ e ∈ ms_ShaderModels, e.m_Kind = .Pixel →
      e.AllowDerivatives .Pixel = true) ∧
    (Get .Compute 6 5).m_pszName = "cs_6_5" ∧
    (Get .Compute 6 5).AllowDerivatives .Compute = false ∧
    (Get .Compute 6 6).m_pszName = "cs_6_6" ∧
    (Get .Compute 6 6).AllowDerivatives .Compute = true := by
  refine ⟨?_, ?_, by decide, by decide, by decide, by decide, by decide⟩
  · intro r k
    cases k <;>
      simp [ShaderModel.AllowDerivatives, ShaderModel.IsSM66Plus]
  · intro r r' k hM hm
    cases k <;>
      simp [ShaderModel.AllowDerivatives, ShaderModel.IsSM66Plus, hM, hm]

set_option maxRecDepth 100000 in
/-- A witness of C9: `Compute` on `cs_6_5`. -/
theorem AllowDerivatives_spec_witness :
    (Get .Compute 6 5).AllowDerivatives .Compute =
      decide ((Get .Compute 6 5).m_Major > 6 ∨
        ((Get .Compute 6 5).m_Major = 6 ∧ (Get .Compute 6 5).m_Minor ≥ 6)) :=
  (AllowDerivatives_spec.1 (Get .Compute 6 5) .Compute).2.1 (Or.inl rfl)

/-- C10: `FullNameFromKind` is non-empty for the fifteen kinds other than
`Library` and `Invalid`, and for each kind with a non-empty full name
`KindFromFullName` maps that name back to the kind. -/
theorem KindFromFullName_FullNameFromKind :
    (Kind.all.filter fun k => decide (FullNameFromKind k ≠ "")).length = 15 ∧
    (∀ k : Kind, FullNameFromKind k ≠ "" ↔ (k ≠ .Library ∧ k ≠ .Invalid)) ∧
    (∀ k : Kind, FullNameFromKind k ≠ "" →
      KindFromFullName (FullNameFromKind k) = k) := by
  refine ⟨by decide, ?_, ?_⟩
  · intro k
    cases k <;> decide
  · intro k
    cases k <;> decide

/-- A witness of C10: the full name of `RayGeneration`. -/
theorem KindFromFullName_FullNameFromKind_witness :
    FullNameFromKind .RayGeneration ≠ "" ∧
    KindFromFullName (FullNameFromKind .RayGeneration) = .RayGeneration :=
  ⟨by decide, KindFromFullName_FullNameFromKind.2.2 .RayGeneration (by decide)⟩

/-- Every string is one of the fifteen literals of `KindFromFullName`, and is
then mapped to a kind whose full name it is, or is none of them, and is then
mapped to `Invalid`. -/
theorem KindFromFullName_cases (s : String) :
    (s ∈ KindFromFullName_literals ∧
      FullNameFromKind (KindFromFullName s) = s ∧
      KindFromFullName s ≠ .Invalid ∧ KindFromFullName s ≠ .Library) ∨
    (s ∉ KindFromFullName_literals ∧ KindFromFullName s = .Invalid) := by
  by_cases h0 : s = "pixel"
  · subst h0; exact Or.inl (by decide)
  by_cases h1 : s = "vertex"
  · subst h1; exact Or.inl (by decide)
  by_cases h2 : s = "geometry"
  · subst h2; exact Or.inl (by decide)
  by_cases h3 : s = "hull"
  · subst h3; exact Or.inl (by decide)
  by_cases h4 : s = "domain"
  · subst h4; exact Or.inl (by decide)
  by_cases h5 : s = "compute"
  · subst h5; exact Or.inl (by decide)
  by_cases h6 : s = "raygeneration"
  · subst h6; exact Or.inl (by decide)
  by_cases h7 : s = "intersection"
  · subst h7; exact Or.inl (by decide)
  by_cases h8 : s = "anyhit"
  · subst h8; exact Or.inl (by decide)
  by_cases h9 : s = "closesthit"
  · subst h9; exact Or.inl (by decide)
  by_cases h10 : s = "miss"
  · subst h10; exact Or.inl (by decide)
  by_cases h11 : s = "callable"
  · subst h11; exact Or.inl (by decide)
  by_cases h12 : s = "mesh"
  · subst h12; exact Or.inl (by decide)
  by_cases h13 : s = "amplification"
  · subst h13; exact Or.inl (by decide)
  by_cases h14 : s = "node"
  · subst h14; exact Or.inl (by decide)
  right
  constructor
  · simp only [KindFromFullName_literals, List.mem_cons, List.mem_singleton,
      List.mem_nil_iff, h0, h1, h2, h3, h4, h5, h6, h7, h8, h9, h10, h11, h12, h13, h14, or_self, not_false_eq_true]
  · simp only [KindFromFullName, h0, h1, h2, h3, h4, h5, h6, h7, h8, h9, h10, h11, h12, h13, h14, if_false]

/-- C11: `FullNameFromKind` is empty for exactly `Library` and `Invalid`.
`KindFromFullName` compares the whole string, letter case included: it gives a
kind other than `Invalid` only for one of its fifteen lower-case literals, and
the full name of that kind is then the string itself; every other string,
such as the empty one, `Pixel`, `lib`, `library` and `ps`, gives `Invalid`;
no string gives `Library`. -/
theorem KindFromFullName_exact :
    (∀ k : Kind, FullNameFromKind k = "" ↔ (k = .Library ∨ k = .Invalid)) ∧
    KindFromFullName_literals.length = 15 ∧
    (∀ l ∈ KindFromFullName_literals, l = StringRef_lower l) ∧
    (∀ s : String, KindFromFullName s ≠ .Invalid →
      s ∈ KindFromFullName_literals ∧
      FullNameFromKind (KindFromFullName s) = s) ∧
    (∀ s : String, s ∈ KindFromFullName_literals →
      KindFromFullName s ≠ .Invalid ∧
      FullNameFromKind (KindFromFullName s) = s) ∧
    (∀ s : String, s ∉ KindFromFullName_literals →
      KindFromFullName s = .Invalid) ∧
    (∀ s : String, KindFromFullName s ≠ .Library) ∧
    KindFromFullName "" = .Invalid ∧
    KindFromFullName "Pixel" = .Invalid ∧
    KindFromFullName "lib" = .Invalid ∧
    KindFromFullName "library" = .Invalid ∧
    KindFromFullName "ps" = .Invalid := by
  refine ⟨?_, by decide, by decide, ?_, ?_, ?_, ?_, by decide, by decide,
    by decide, by decide, by decide⟩
  · intro k
    cases k <;> decide
  · intro s hs
    rcases KindFromFullName_cases s with h | h
    · exact ⟨h.1, h.2.1⟩
    · exact absurd h.2 hs
  · intro s hs
    rcases KindFromFullName_cases s with h | h
    · exact ⟨h.2.2.1, h.2.1⟩
    · exact absurd hs h.1
  · intro s hs
    rcases KindFromFullName_cases s with h | h
    · exact absurd h.1 hs
    · exact h.2
  · intro s
    rcases KindFromFullName_cases s with h | h
    · exact h.2.2.2
    · rw [h.2]; decide

/-- A witness of C11: the literal `mesh` is accepted and is the full name of
the kind it gives. -/
theorem KindFromFullName_exact_witness :
    KindFromFullName "mesh" ≠ .Invalid ∧
    "mesh" ∈ KindFromFullName_literals ∧
    FullNameFromKind (KindFromFullName "mesh") = "mesh" :=
  ⟨by decide, KindFromFullName_exact.2.2.2.1 "mesh" (by decide)⟩


/-- The three comparisons of `NodeLaunchTypeFromName`, by the lower-cased
argument. -/
theorem NodeLaunchTypeFromName_cases (s : String) :
    (StringRef_lower s = "broadcasting" ∧ NodeLaunchTypeFromName s = .Broadcasting) ∨
    (StringRef_lower s = "coalescing" ∧ NodeLaunchTypeFromName s = .Coalescing) ∨
    (StringRef_lower s = "thread" ∧ NodeLaunchTypeFromName s = .Thread) ∨
    ((StringRef_lower s ≠ "broadcasting" ∧ StringRef_lower s ≠ "coalescing" ∧
        StringRef_lower s ≠ "thread") ∧ NodeLaunchTypeFromName s = .Invalid) := by
  unfold NodeLaunchTypeFromName
  by_cases h1 : StringRef_lower s = "broadcasting"
  · left; simp [h1]
  by_cases h2 : StringRef_lower s = "coalescing"
  · right; left; rw [h2]; exact ⟨rfl, by decide⟩
  by_cases h3 : StringRef_lower s = "thread"
  · right; right; left; rw [h3]; exact ⟨rfl, by decide⟩
  · right; right; right; simp [h1, h2, h3]

/-- Two strings whose characters agree up to the case of the letters `A` to
`Z` have the same lower-cased form. -/
theorem StringRef_lower_congr (s t : String)
    (h : List.Forall₂ (fun a b : Char => a.toLower = b.toLower) s.data t.data) :
    StringRef_lower s = StringRef_lower t := by
  have aux : ∀ (xs ys : List Char),
      List.Forall₂ (fun a b : Char => a.toLower = b.toLower) xs ys →
      xs.map Char.toLower = ys.map Char.toLower := by
    intro xs ys hxy
    induction hxy with
    | nil => rfl
    | cons hab _ ih => simp [List.map_cons, hab, ih]
  unfold StringRef_lower
  rw [aux s.data t.data h]

/-- C12: `NodeLaunchTypeFromName` is `Broadcasting`, `Coalescing` or `Thread`
exactly when the lower-cased argument is `broadcasting`, `coalescing` or
`thread`, and `Invalid` for every other argument; two arguments with the same
lower-cased form, in particular two that differ only in letter case, give the
same launch type: `THREAD`, `Thread` and `thread` all give `Thread`. -/
theorem NodeLaunchTypeFromName_lower :
    (∀ s : String, NodeLaunchTypeFromName s = .Broadcasting ↔
      StringRef_lower s = "broadcasting") ∧
    (∀ s : String, NodeLaunchTypeFromName s = .Coalescing ↔
      StringRef_lower s = "coalescing") ∧
    (∀ s : String, NodeLaunchTypeFromName s = .Thread ↔
      StringRef_lower s = "thread") ∧
    (∀ s : String, NodeLaunchTypeFromName s = .Invalid ↔
      (StringRef_lower s ≠ "broadcasting" ∧ StringRef_lower s ≠ "coalescing" ∧
        StringRef_lower s ≠ "thread")) ∧
    (∀ s t : String, StringRef_lower s = StringRef_lower t →
      NodeLaunchTypeFromName s = NodeLaunchTypeFromName t) ∧
    (∀ s t : String,
      List.Forall₂ (fun a b : Char => a.toLower = b.toLower) s.data t.data →
      NodeLaunchTypeFromName s = NodeLaunchTypeFromName t) ∧
    StringRef_lower "THREAD" = "thread" ∧
    StringRef_lower "Thread" = "thread" ∧
    NodeLaunchTypeFromName "THREAD" = .Thread ∧
    NodeLaunchTypeFromName "Thread" = .Thread ∧
    NodeLaunchTypeFromName "thread" = .Thread := by
  have key : ∀ s t : String, StringRef_lower s = StringRef_lower t →
      NodeLaunchTypeFromName s = NodeLaunchTypeFromName t := by
    intro s t h
    unfold NodeLaunchTypeFromName
    simp only [h]
  refine ⟨?_, ?_, ?_, ?_, key, ?_, by decide, by decide, by decide, by decide,
    by decide⟩
  · intro s
    rcases NodeLaunchTypeFromName_cases s with h | h | h | h
    · simp [h.1, h.2]
    · rw [h.1, h.2]; decide
    · rw [h.1, h.2]; decide
    · simp [h.1.1, h.2]
  · intro s
    rcases NodeLaunchTypeFromName_cases s with h | h | h | h
    · rw [h.1, h.2]; decide
    · simp [h.1, h.2]
    · rw [h.1, h.2]; decide
    · simp [h.1.2.1, h.2]
  · intro s
    rcases NodeLaunchTypeFromName_cases s with h | h | h | h
    · rw [h.1, h.2]; decide
    · rw [h.1, h.2]; decide
    · simp [h.1, h.2]
    · simp [h.1.2.2, h.2]
  · intro s
    rcases NodeLaunchTypeFromName_cases s with h | h | h | h
    · rw [h.1, h.2]; decide
    · rw [h.1, h.2]; decide
    · rw [h.1, h.2]; decide
    · simp [h.1, h.2]
  · intro s t h
    exact key s t (StringRef_lower_congr s t h)

/-- A witness of C12: `THREAD` and `thread` have the same lower-cased form and
give the same launch type. -/
theorem NodeLaunchTypeFromName_lower_witness :
    StringRef_lower "THREAD" = StringRef_lower "thread" ∧
    NodeLaunchTypeFromName "THREAD" = NodeLaunchTypeFromName "thread" :=
  ⟨by decide, NodeLaunchTypeFromName_lower.2.2.2.2.1 "THREAD" "thread" (by decide)⟩

/-- C13: for each of the four launch types the index that
`GetNodeLaunchTypeName` uses is inside `NodeLaunchTypeNames`, so a name is
returned, and `NodeLaunchTypeFromName` maps that name back to the launch
type. -/
theorem NodeLaunchType_name_roundtrip :
    NodeLaunchTypeNames.length = 4 ∧
    ∀ t : NodeLaunchType,
      t.toUnsigned < NodeLaunchTypeNames.length ∧
      (GetNodeLaunchTypeName t).isSome = true ∧
      (GetNodeLaunchTypeName t).map NodeLaunchTypeFromName = some t := by
  refine ⟨by decide, ?_⟩
  intro t
  cases t <;> decide

set_option maxRecDepth 100000 in
/-- C14: in the table before the invalid record, each record is followed by
one whose triple (ordinal of the kind, major, minor) is strictly greater in
lexicographic order; no two of these records have the same kind, major and
minor; and the composite keys `kind * 2 ^ 16 + major * 2 ^ 8 + minor` are
strictly increasing from each record to the next. -/
theorem ms_ShaderModels_strictly_sorted :
    realShaderModels.length = 91 ∧
    (∀ i < realShaderModels.length - 1,
      (realShaderModels.getD i GetInvalid).tripleLt
        (realShaderModels.getD (i + 1) GetInvalid)) ∧
    List.Pairwise
      (fun a b : ShaderModel =>
        ¬ (a.m_Kind = b.m_Kind ∧ a.m_Major = b.m_Major ∧ a.m_Minor = b.m_Minor))
      realShaderModels ∧
    (∀ i < realShaderModels.length - 1,
      (realShaderModels.getD i GetInvalid).compositeKey <
        (realShaderModels.getD (i + 1) GetInvalid).compositeKey) := by
  decide

set_option maxRecDepth 100000 in
/-- C15: `GetInvalid` returns the last record of the table; its kind is
`Invalid`, its major, minor and three register counts are 0, its typed-UAV
flag is false and its name is `invalid`; no other position of the table holds
a record of kind `Invalid`; and on the records of the table `IsValid` returns
false exactly for that last record. -/
theorem GetInvalid_is_last :
    ms_ShaderModels.length = kNumShaderModels ∧
    ms_ShaderModels.getLast? = some GetInvalid ∧
    GetInvalid =
      { m_Kind := .Invalid, m_Major := 0, m_Minor := 0, m_pszName := "invalid",
        m_NumInputRegs := 0, m_NumOutputRegs := 0, m_bTypedUavs := false,
        m_NumUAVRegs := 0 } ∧
    (∀ i < ms_ShaderModels.length,
      (ms_ShaderModels.getD i GetInvalid).m_Kind = .Invalid ↔
        i = kNumShaderModels - 1) ∧
    (∀ e ∈ realShaderModels, e.m_Kind ≠ .Invalid) ∧
    (∀ e ∈ ms_ShaderModels, e.IsValid = some false ↔ e = GetInvalid) ∧
    (∀ e ∈ ms_ShaderModels, e ≠ GetInvalid → e.IsValid = some true) := by
  decide

set_option maxRecDepth 100000 in
/-- The only record of the table with the offline minor is a library record
of major 6. -/
theorem ms_ShaderModels_offline :
    ∀ e ∈ ms_ShaderModels, e.m_Minor = kOfflineMinor →
      e.m_Kind = .Library ∧ e.m_Major = 6 := by
  decide

set_option maxRecDepth 100000 in
/-- The rows before the invalid record and the invalid record itself are rows
of the table. -/
theorem realShaderModels_subset :
    (∀ e ∈ realShaderModels, e ∈ ms_ShaderModels) ∧ GetInvalid ∈ ms_ShaderModels := by
  decide

/-- Every record that `Get` returns is a row of the table. -/
theorem Get_mem_table (k : Kind) (M m : Nat) : Get k M m ∈ ms_ShaderModels := by
  rcases Get_invalid_or_key k M m with h | h
  · rw [h]; exact realShaderModels_subset.2
  · exact realShaderModels_subset.1 _ h.1

/-- Every record that `GetByName` returns is a row of the table. -/
theorem GetByName_mem_table (s : String) (r : ShaderModel)
    (h : GetByName s = some r) : r ∈ ms_ShaderModels := by
  by_cases hr : r = GetInvalid
  · rw [hr]; exact realShaderModels_subset.2
  · obtain ⟨k, M, m, _, hget, _, _⟩ := GetByName_some_name s r h hr
    rw [hget]; exact Get_mem_table k M m

/-- C16: in the table the offline minor occurs only in a library record, and
every record with the offline minor that `GetByName` returns has kind
`Library` and major 6. -/
theorem offline_minor_only_library :
    (∀ e ∈ ms_ShaderModels, e.m_Minor = kOfflineMinor → e.m_Kind = .Library) ∧
    (∀ (s : String) (r : ShaderModel), GetByName s = some r →
      r.m_Minor = kOfflineMinor → r.m_Kind = .Library ∧ r.m_Major = 6) := by
  constructor
  · intro e he hm
    exact (ms_ShaderModels_offline e he hm).1
  · intro s r h hm
    exact ms_ShaderModels_offline r (GetByName_mem_table s r h) hm

set_option maxRecDepth 100000 in
/-- A witness of C16: `lib_6_x` is returned with the offline minor. -/
theorem offline_minor_only_library_witness :
    GetByName "lib_6_x" = some (Get .Library 6 kOfflineMinor) ∧
    (Get .Library 6 kOfflineMinor).m_Minor = kOfflineMinor ∧
    (Get .Library 6 kOfflineMinor).m_Kind = .Library ∧
    (Get .Library 6 kOfflineMinor).m_Major = 6 :=
  ⟨by decide, by decide,
   offline_minor_only_library.2 "lib_6_x" (Get .Library 6 kOfflineMinor)
     (by decide) (by decide)⟩

set_option maxRecDepth 100000 in
/-- C17: `hashToIdxMap` has 91 pairs, one for each record of the table before
the invalid one; the pair at position `i` is the composite key
`kind * 2 ^ 16 + major * 2 ^ 8 + minor` of the record at position `i` of the
table together with `i`; the keys are strictly ascending; and every stored
index is below `kNumShaderModels - 1`. -/
theorem hashToIdxMap_matches_table :
    hashToIdxMap.length = 91 ∧
    hashToIdxMap.length = realShaderModels.length ∧
    (∀ i < hashToIdxMap.length,
      hashToIdxMap.getD i (0, 0) =
        ((ms_ShaderModels.getD i GetInvalid).compositeKey, i)) ∧
    (∀ i < hashToIdxMap.length - 1,
      (hashToIdxMap.getD i (0, 0)).1 < (hashToIdxMap.getD (i + 1) (0, 0)).1) ∧
    List.Pairwise (fun p q : Nat × Nat => p.1 < q.1) hashToIdxMap ∧
    (∀ p ∈ hashToIdxMap, p.2 < kNumShaderModels - 1) := by
  decide

/-- Inside the one-byte range of major and minor the shifts of `Get_hash` do
not wrap and the three parts do not overlap, so the bitwise or is a sum. -/
theorem Get_hash_of_lt (k : Kind) (M m : Nat) (hM : M < 256) (hm : m < 256) :
    Get_hash k M m = k.toUnsigned * 2 ^ 16 + M * 2 ^ 8 + m := by
  have hk : k.toUnsigned ≤ 16 := by cases k <;> decide
  unfold Get_hash
  simp only [Nat.shiftLeft_eq]
  have e1 : k.toUnsigned * 2 ^ 16 % 2 ^ 32 = k.toUnsigned * 2 ^ 16 :=
    Nat.mod_eq_of_lt (by omega)
  have e2 : M % 2 ^ 32 = M := Nat.mod_eq_of_lt (by omega)
  have e3 : M * 2 ^ 8 % 2 ^ 32 = M * 2 ^ 8 := Nat.mod_eq_of_lt (by omega)
  have e4 : m % 2 ^ 32 = m := Nat.mod_eq_of_lt (by omega)
  rw [e2, e1, e3, e4]
  have s1 : k.toUnsigned * 2 ^ 16 ||| M * 2 ^ 8 = k.toUnsigned * 2 ^ 16 + M * 2 ^ 8 := by
    have := Nat.mul_add_lt_is_or (i := 16) (b := M * 2 ^ 8) (by omega) k.toUnsigned
    rw [Nat.mul_comm (2 ^ 16)] at this
    exact this.symm
  rw [s1]
  have s2 : k.toUnsigned * 2 ^ 16 + M * 2 ^ 8 = 2 ^ 8 * (k.toUnsigned * 2 ^ 8 + M) := by
    omega
  rw [s2]
  exact (Nat.mul_add_lt_is_or (i := 8) (b := m) (by omega) _).symm

/-- C18 (as stated): for kind `Pixel`, major 1 and minor 256, both of them
32-bit values, the key that `Get` computes is `0 | 256 | 256 = 256`, and
`kind * 2 ^ 16 + major * 2 ^ 8 + minor` is 512. -/
theorem Get_hash_not_sum :
    1 < 2 ^ 32 ∧ 256 < 2 ^ 32 ∧
    Get_hash .Pixel 1 256 = 256 ∧
    Kind.Pixel.toUnsigned * 2 ^ 16 + 1 * 2 ^ 8 + 256 = 512 ∧
    Get_hash .Pixel 1 256 ≠ Kind.Pixel.toUnsigned * 2 ^ 16 + 1 * 2 ^ 8 + 256 := by
  decide

/-- C18 (amended): for every kind and all major and minor below 256, the key
that `Get` computes is `kind * 2 ^ 16 + major * 2 ^ 8 + minor`. -/
theorem Get_hash_sum_of_bytes (k : Kind) (M m : Nat) (hM : M < 256)
    (hm : m < 256) :
    Get_hash k M m = k.toUnsigned * 2 ^ 16 + M * 2 ^ 8 + m :=
  Get_hash_of_lt k M m hM hm

/-- A witness of C18: the key of `lib_6_x`. -/
theorem Get_hash_sum_of_bytes_witness :
    6 < 256 ∧ kOfflineMinor < 256 ∧
    Get_hash .Library 6 kOfflineMinor =
      Kind.Library.toUnsigned * 2 ^ 16 + 6 * 2 ^ 8 + kOfflineMinor :=
  ⟨by decide, by decide,
   Get_hash_sum_of_bytes .Library 6 kOfflineMinor (by decide) (by decide)⟩

/-- The derived versions exist exactly under the precondition: each of
`GetDxilVersion` and `GetMinValidatorVersion` returns a pair if and only if
`IsValidForDxil` returns true. -/
theorem versions_isSome_iff (r : ShaderModel) :
    (r.GetDxilVersion.isSome = true ↔ r.IsValidForDxil = some true) ∧
    (r.GetMinValidatorVersion.isSome = true ↔ r.IsValidForDxil = some true) := by
  constructor
  · constructor
    · intro h
      cases hv : r.IsValidForDxil with
      | none => simp [ShaderModel.GetDxilVersion, hv] at h
      | some b =>
        cases b with
        | false => simp [ShaderModel.GetDxilVersion, hv, DXASSERT] at h
        | true => rfl
    · intro h
      rw [GetDxilVersion_of_true r h]; rfl
  · constructor
    · intro h
      cases hv : r.IsValidForDxil with
      | none => simp [ShaderModel.GetMinValidatorVersion, hv] at h
      | some b =>
        cases b with
        | false => simp [ShaderModel.GetMinValidatorVersion, hv, DXASSERT] at h
        | true => rfl
    · intro h
      rw [GetMinValidatorVersion_of_true r h]
      split <;> rfl

/-- C19: for every record on which `IsValidForDxil` returns true, the
assertion of `IsValid` and the entry assertion of `GetDxilVersion` and
`GetMinValidatorVersion` hold, the minor is one of the `case` labels of their
`switch` (so the `default` branch with its assertion is not reached), and
both functions return with both of their outputs assigned. -/
theorem versions_assertions_hold (r : ShaderModel)
    (h : r.IsValidForDxil = some true) :
    r.IsValid_condition = true ∧
    r.IsValidForDxil.bind DXASSERT = some () ∧
    r.m_Minor ∈ [0, 1, 2, 3, 4, 5, 6, 7, 8, kOfflineMinor] ∧
    (∃ DxilMajor DxilMinor, r.GetDxilVersion = some (DxilMajor, DxilMinor)) ∧
    (∃ ValMajor ValMinor, r.GetMinValidatorVersion = some (ValMajor, ValMinor)) := by
  have hv := (IsValidForDxil_true_iff r).mp h
  refine ⟨hv.1, by rw [h]; rfl, ?_, ?_, ?_⟩
  · rcases hv.2.2.2 with hm | hm
    · have : r.m_Minor = 0 ∨ r.m_Minor = 1 ∨ r.m_Minor = 2 ∨ r.m_Minor = 3 ∨
          r.m_Minor = 4 ∨ r.m_Minor = 5 ∨ r.m_Minor = 6 ∨ r.m_Minor = 7 ∨
          r.m_Minor = 8 := by omega
      simp only [List.mem_cons, List.mem_singleton]
      tauto
    · simp [hm.1]
  · exact ⟨_, _, GetDxilVersion_of_true r h⟩
  · rw [GetMinValidatorVersion_of_true r h]
    split
    · exact ⟨_, _, rfl⟩
    · exact ⟨_, _, rfl⟩

set_option maxRecDepth 100000 in
/-- A witness of C19: `lib_6_x`. -/
theorem versions_assertions_hold_witness :
    (Get .Library 6 kOfflineMinor).IsValidForDxil = some true ∧
    (∃ DxilMajor DxilMinor,
      (Get .Library 6 kOfflineMinor).GetDxilVersion = some (DxilMajor, DxilMinor)) :=
  ⟨by decide,
   (versions_assertions_hold (Get .Library 6 kOfflineMinor) (by decide)).2.2.2.1⟩

set_option maxRecDepth 100000 in
/-- On each row before the invalid one: `Get` on the row's kind, major and
minor returns the row itself, the row is not the invalid record, and its major
and minor are below 256. -/
theorem realShaderModels_get :
    ∀ e ∈ realShaderModels,
      Get e.m_Kind e.m_Major e.m_Minor = e ∧ e ≠ GetInvalid ∧
      e.m_Major < 256 ∧ e.m_Minor < 256 := by
  decide

/-- The cast of a kind to its ordinal is injective. -/
theorem Kind.toUnsigned_inj (a b : Kind) (h : a.toUnsigned = b.toUnsigned) :
    a = b := by
  cases a <;> cases b <;> first | rfl | (exact absurd h (by decide))

/-- Inside the one-byte range of major and minor the packed key determines
the kind, the major and the minor. -/
theorem Get_hash_inj (k k' : Kind) (M m M' m' : Nat) (hM : M < 256)
    (hm : m < 256) (hM' : M' < 256) (hm' : m' < 256)
    (h : Get_hash k M m = Get_hash k' M' m') :
    k = k' ∧ M = M' ∧ m = m' := by
  rw [Get_hash_of_lt k M m hM hm, Get_hash_of_lt k' M' m' hM' hm'] at h
  have hk : k.toUnsigned = k'.toUnsigned := by omega
  exact ⟨Kind.toUnsigned_inj k k' hk, by omega, by omega⟩

/-- C21: for every kind and all major and minor below 256, `Get` returns a
record other than the invalid one exactly when a row before the invalid one
has that kind, major and minor; the record returned then has exactly that
kind, major and minor (and is that row); otherwise the invalid record is
returned. -/
theorem Get_exact_of_bytes (k : Kind) (M m : Nat) (hM : M < 256) (hm : m < 256) :
    (Get k M m ≠ GetInvalid ↔
      ∃ e ∈ realShaderModels, e.m_Kind = k ∧ e.m_Major = M ∧ e.m_Minor = m) ∧
    (Get k M m ≠ GetInvalid →
      Get k M m ∈ realShaderModels ∧ (Get k M m).m_Kind = k ∧
      (Get k M m).m_Major = M ∧ (Get k M m).m_Minor = m) ∧
    ((¬ ∃ e ∈ realShaderModels, e.m_Kind = k ∧ e.m_Major = M ∧ e.m_Minor = m) →
      Get k M m = GetInvalid) := by
  have fwd : Get k M m ≠ GetInvalid →
      Get k M m ∈ realShaderModels ∧ (Get k M m).m_Kind = k ∧
      (Get k M m).m_Major = M ∧ (Get k M m).m_Minor = m := by
    intro hne
    rcases Get_invalid_or_key k M m with h | h
    · exact absurd h hne
    · have hrow := realShaderModels_get _ h.1
      have hinj := Get_hash_inj _ k _ _ M m hrow.2.2.1 hrow.2.2.2 hM hm h.2
      exact ⟨h.1, hinj.1, hinj.2.1, hinj.2.2⟩
  have bwd : (∃ e ∈ realShaderModels, e.m_Kind = k ∧ e.m_Major = M ∧ e.m_Minor = m) →
      Get k M m ≠ GetInvalid := by
    rintro ⟨e, he, hk, hMe, hme⟩
    have hrow := realShaderModels_get e he
    rw [← hk, ← hMe, ← hme, hrow.1]
    exact hrow.2.1
  refine ⟨⟨fun hne => ⟨Get k M m, (fwd hne).1, (fwd hne).2⟩, bwd⟩, fwd, ?_⟩
  intro hnone
  by_contra hne
  exact hnone ⟨Get k M m, (fwd hne).1, (fwd hne).2⟩

set_option maxRecDepth 100000 in
/-- A witness of C21: `(Hull, 4, 0)` is below 256 in major and minor, no row
has it, and `Get` returns the invalid record for it. -/
theorem Get_exact_of_bytes_witness :
    (4 < 256 ∧ 0 < 256) ∧
    (¬ ∃ e ∈ realShaderModels, e.m_Kind = .Hull ∧ e.m_Major = 4 ∧ e.m_Minor = 0) ∧
    Get .Hull 4 0 = GetInvalid :=
  ⟨by decide, by decide,
   (Get_exact_of_bytes .Hull 4 0 (by decide) (by decide)).2.2 (by decide)⟩

set_option maxRecDepth 100000 in
/-- C22: for every row before the invalid one, the name is the short name
that `GetKindName` returns for the row's kind, then `_`, the decimal digit of
the major, `_`, and the decimal digit of the minor, or `x` when the minor is
the offline minor; the name of the invalid record is
`GetKindName(Invalid)`, which is `invalid`; and for every kind the index that
`GetKindName` uses is inside `ShaderModelKindNames`. -/
theorem names_match_GetKindName :
    (∀ e ∈ realShaderModels,
      e.m_Major < 10 ∧ (e.m_Minor < 10 ∨ e.m_Minor = kOfflineMinor) ∧
      (GetKindName e.m_Kind).map
          (fun kindName =>
            kindName ++ "_" ++ String.singleton (Nat.digitChar e.m_Major) ++ "_" ++
              (if e.m_Minor = kOfflineMinor then "x"
               else String.singleton (Nat.digitChar e.m_Minor))) =
        some e.m_pszName) ∧
    GetKindName GetInvalid.m_Kind = some GetInvalid.m_pszName ∧
    GetKindName .Invalid = some "invalid" ∧
    ShaderModelKindNames.length = 17 ∧
    (∀ k : Kind, k.toUnsigned < ShaderModelKindNames.length ∧
      (GetKindName k).isSome = true) := by
  refine ⟨by decide, by decide, by decide, by decide, ?_⟩
  intro k
  cases k <;> decide

end hlsl
